import Mathlib

/-!
# PDAL: Dimension scaling and the spatial crop filter

A shallow embedding of `include/pdal/Dimension.hpp` and
`src/filters/CropFilter.cpp`.

Conventions of the embedding.
* A C++ `double` is an exact rational (`ℚ`), and the arithmetic on doubles is
  taken exactly, except in `applyScalingDouble`, which rounds every step to
  the nearest double.
* Fixed-width integers are `Int`/`Nat` values; the conversion from `double`
  to an integer type reduces modulo `2 ^ width` explicitly.
* Code that can throw returns `Except Error _`.
-/

namespace pdal

/-! ## Errors -/

/-- The failure conditions the embedded code can signal. -/
inductive Error where
  /-- The exception `std::out_of_range`, thrown by `Dimension::removeScaling`. -/
  | out_of_range
  /-- The buffer-too-small condition of `PointBuffer::setNumPoints`. -/
  | buffer_too_small
  /-- A schema lookup of a dimension that is absent. -/
  | schema_error
  /-- The `assert` on the coordinate dimensions at the top of `processBuffer`. -/
  | assert_schema
  /-- The `assert(dstIndex <= dstData.getCapacity())` closing `processBuffer`. -/
  | assert_capacity
  /-- A record copy whose destination index is not below the capacity. -/
  | dst_out_of_bounds
  /-- A read of a source record or field that the buffer does not hold. -/
  | src_out_of_bounds
  /-- A required option is missing from an `Options` set: the configuration
  error of `Options::getValueOrThrow`. -/
  | option_not_found
  deriving DecidableEq, Repr

/-! ## Dimension -/

/-- The enumeration `Dimension::DataType`. -/
inductive DataType where
  | Int8 | Uint8 | Int16 | Uint16 | Int32 | Uint32 | Int64 | Uint64
  | Pointer | Float | Double | Undefined
  deriving DecidableEq, Repr

/-- Modelled from the spec: the type `EndianType` of `pdal/pdal.hpp`
("little"/"big", default little). -/
inductive EndianType where
  | Endian_Little | Endian_Big
  deriving DecidableEq, Repr

/-- Modelled from the spec: the enumeration `DimensionId::Id` of
`pdal/DimensionId.hpp`, of which the code under study names the six
coordinate identifiers; every other identifier is `other n`. -/
inductive DimensionId where
  | X_i32 | Y_i32 | Z_i32 | X_f64 | Y_f64 | Z_f64
  | other (n : Nat)
  deriving DecidableEq, Repr

/-- The flag value `Dimension::Flags::Invalid`. -/
def Invalid : Nat := 0x0
/-- The flag bit `Dimension::Flags::IsAdded`. -/
def IsAdded : Nat := 0x1
/-- The flag bit `Dimension::Flags::IsRead`. -/
def IsRead : Nat := 0x2
/-- The flag bit `Dimension::Flags::IsWritten`. -/
def IsWritten : Nat := 0x4
/-- The flag bit `Dimension::Flags::IsIgnored`. -/
def IsIgnored : Nat := 0x8

/-- The private data members of `class Dimension`. -/
structure Dimension where
  m_dataType : DataType
  m_id : DimensionId
  m_name : String
  m_flags : Nat
  m_endian : EndianType
  m_byteSize : Nat
  m_description : String
  m_min : ℚ
  m_max : ℚ
  m_precise : Bool
  m_numericScale : ℚ
  m_numericOffset : ℚ
  deriving DecidableEq

namespace Utils

/-- Modelled from the spec: `Utils::compare_approx(actual, expected, tolerance)`
of `pdal/Utils.hpp`, equality "within floating tolerance": the two values
differ by no more than the tolerance. -/
def compare_approx (actual expected tolerance : ℚ) : Bool :=
  decide (|actual - expected| ≤ tolerance)

/-- Modelled from the spec: `Utils::sround` of `pdal/Utils.hpp`,
"round-to-nearest"; a tie goes away from zero. The result is the rounded
value, still as a `double`. -/
def sround (r : ℚ) : ℚ :=
  if r > 0 then (⌊r + 1 / 2⌋ : ℚ) else (⌈r - 1 / 2⌉ : ℚ)

end Utils

/-- The constant `std::numeric_limits<double>::min()`, the smallest positive
normal `double`, `2 ^ (-1022)`. -/
def DBL_MIN : ℚ := 1 / 2 ^ 1022

namespace Dimension

/-- The getter `Dimension::getNumericScale`. -/
def getNumericScale (d : Dimension) : ℚ := d.m_numericScale

/-- The getter `Dimension::getNumericOffset`. -/
def getNumericOffset (d : Dimension) : ℚ := d.m_numericOffset

/-- The setter `Dimension::setNumericScale`: a value that is not approximately
zero turns the precision flag on; the scale is stored in every case. -/
def setNumericScale (d : Dimension) (v : ℚ) : Dimension :=
  let d1 := if !Utils.compare_approx v 0 DBL_MIN then { d with m_precise := true } else d
  { d1 with m_numericScale := v }

/-- The setter `Dimension::setNumericOffset`: a value that is not approximately
zero turns the precision flag on; the offset is stored in every case. -/
def setNumericOffset (d : Dimension) (v : ℚ) : Dimension :=
  let d1 := if !Utils.compare_approx v 0 DBL_MIN then { d with m_precise := true } else d
  { d1 with m_numericOffset := v }

/-- The getter `Dimension::isFinitePrecision() const`. -/
def isFinitePrecision (d : Dimension) : Bool := d.m_precise

/-- The setter `Dimension::isFinitePrecision(bool)`. -/
def setFinitePrecision (d : Dimension) (v : Bool) : Dimension :=
  { d with m_precise := v }

/-- The method `Dimension::applyScaling<T>`:
`static_cast<double>(v) * m_numericScale + m_numericOffset`, with the
arithmetic taken exactly. The raw value of any integer type `T` is an `Int`.
The same expression with every step rounded to a double is
`applyScalingDouble`. -/
def applyScaling (d : Dimension) (v : Int) : ℚ :=
  (v : ℚ) * d.m_numericScale + d.m_numericOffset

end Dimension

/-- The fixed-width integer types a `removeScaling<T>` call is instantiated
at. -/
inductive IntegerType where
  | int8_t | uint8_t | int16_t | uint16_t | int32_t | uint32_t | int64_t | uint64_t
  deriving DecidableEq, Repr

namespace IntegerType

/-- The width of the type in bits. -/
def bits : IntegerType → Nat
  | int8_t | uint8_t => 8
  | int16_t | uint16_t => 16
  | int32_t | uint32_t => 32
  | int64_t | uint64_t => 64

/-- Whether the type is signed. -/
def isSigned : IntegerType → Bool
  | int8_t | int16_t | int32_t | int64_t => true
  | uint8_t | uint16_t | uint32_t | uint64_t => false

/-- The value `std::numeric_limits<T>::min()`. -/
def min (T : IntegerType) : Int :=
  if T.isSigned then -(2 ^ (T.bits - 1)) else 0

/-- The value `std::numeric_limits<T>::max()`. -/
def max (T : IntegerType) : Int :=
  if T.isSigned then 2 ^ (T.bits - 1) - 1 else 2 ^ T.bits - 1

/-- The conversion `static_cast<T>(double)`: the fraction is discarded
(towards zero) and the integer is reduced modulo `2 ^ bits` into the range of
`T`. A value already in range is unchanged; out of range the C++ standard
leaves the result open, and the reduction is what two's-complement truncation
gives. -/
def static_cast (T : IntegerType) (r : ℚ) : Int :=
  let n : Int := if r ≥ 0 then ⌊r⌋ else ⌈r⌉
  if T.isSigned then (n + 2 ^ (T.bits - 1)) % 2 ^ T.bits - 2 ^ (T.bits - 1)
  else n % 2 ^ T.bits

end IntegerType

namespace Dimension

/-- The method `Dimension::removeScaling<T>`. The first branch of the source
builds a message and falls through to `return output`; only the second branch
throws. With a zero scale the C++ quotient is infinite or NaN, which the total
division of `ℚ` does not represent: no statement below is about that case. -/
def removeScaling (T : IntegerType) (d : Dimension) (v : ℚ) : Except Error Int :=
  let output : Int := T.static_cast (Utils.sround ((v - d.m_numericOffset) / d.m_numericScale))
  if output ≥ T.max then
    Except.ok output
  else if output ≤ T.min then
    Except.error Error.out_of_range
  else
    Except.ok output

end Dimension

/-! ## Schema and layout -/

/-- Modelled from the spec: `class Schema` of `pdal/Schema.hpp`, "an ordered
collection of Dimensions, unique by id, insertion order preserved". -/
structure Schema where
  m_dimensions : List Dimension
  deriving DecidableEq

namespace Schema

/-- Modelled from the spec: `Schema::hasDimension(id)`. -/
def hasDimension (s : Schema) (id : DimensionId) : Bool :=
  s.m_dimensions.any (fun d => d.m_id == id)

/-- Modelled from the spec: `Schema::getDimension(id)`, which "fails with a
schema error if absent". -/
def getDimension (s : Schema) (id : DimensionId) : Except Error Dimension :=
  match s.m_dimensions.find? (fun d => d.m_id == id) with
  | some d => Except.ok d
  | none => Except.error Error.schema_error

end Schema

/-- Modelled from the spec: `class SchemaLayout` of `pdal/SchemaLayout.hpp`,
the layout "computed once from a Schema snapshot"; a dimension's index is its
position in the schema order. -/
structure SchemaLayout where
  m_schema : Schema
  deriving DecidableEq

namespace SchemaLayout

/-- Modelled from the spec: `SchemaLayout::getSchema()`. -/
def getSchema (l : SchemaLayout) : Schema := l.m_schema

/-- Modelled from the spec: `SchemaLayout::getDimensionIndex(id)`, the
position of the dimension with this id; a lookup of an absent dimension is a
schema error. -/
def getDimensionIndex (l : SchemaLayout) (id : DimensionId) : Except Error Nat :=
  let i := l.m_schema.m_dimensions.findIdx (fun d => d.m_id == id)
  if i < l.m_schema.m_dimensions.length then Except.ok i else Except.error Error.schema_error

end SchemaLayout

/-! ## PointBuffer -/

/-- One field of a point record: the value stored for one dimension. A
`Double` field holds a `double`, an `Int32` field a 32-bit integer, and any
other field its raw bytes. -/
inductive FieldValue where
  | f64 (v : ℚ)
  | i32 (v : Int)
  | raw (bytes : List Nat)
  deriving DecidableEq

/-- One point record: the fields in layout order. -/
abbrev PointRecord := List FieldValue

/-- Modelled from the spec: `class PointBuffer` of `pdal/PointBuffer.hpp`, "a
fixed-capacity array of raw point records addressed by (point index,
dimension) via the SchemaLayout"; it "tracks `numPoints ≤ capacity`". The
storage `m_data` has one record per slot. -/
structure PointBuffer where
  m_schemaLayout : SchemaLayout
  m_capacity : Nat
  m_numPoints : Nat
  m_data : List PointRecord
  deriving DecidableEq

namespace PointBuffer

/-- Modelled from the spec: `PointBuffer::getSchemaLayout()`. -/
def getSchemaLayout (b : PointBuffer) : SchemaLayout := b.m_schemaLayout

/-- Modelled from the spec: `PointBuffer::getNumPoints()`. -/
def getNumPoints (b : PointBuffer) : Nat := b.m_numPoints

/-- Modelled from the spec: `PointBuffer::getCapacity()`. -/
def getCapacity (b : PointBuffer) : Nat := b.m_capacity

/-- Modelled from the spec: `PointBuffer::getField<double>(pointIndex,
fieldIndex)`, a bounds-checked read: it fails unless the buffer stores a
record at the index and that record has a `double` at the field. -/
def getField_double (b : PointBuffer) (pointIndex fieldIndex : Nat) : Except Error ℚ :=
  match b.m_data[pointIndex]? with
  | some record =>
    match record[fieldIndex]? with
    | some (FieldValue.f64 v) => Except.ok v
    | _ => Except.error Error.src_out_of_bounds
  | none => Except.error Error.src_out_of_bounds

/-- Modelled from the spec: `PointBuffer::getField<boost::int32_t>(pointIndex,
fieldIndex)`, a bounds-checked read: it fails unless the buffer stores a
record at the index and that record has a 32-bit integer at the field. -/
def getField_int32 (b : PointBuffer) (pointIndex fieldIndex : Nat) : Except Error Int :=
  match b.m_data[pointIndex]? with
  | some record =>
    match record[fieldIndex]? with
    | some (FieldValue.i32 v) => Except.ok v
    | _ => Except.error Error.src_out_of_bounds
  | none => Except.error Error.src_out_of_bounds

/-- Modelled from the spec: `PointBuffer::copyPointFast(dstIndex, srcIndex,
srcBuffer)`, "a raw byte-range copy of one full record from the source
buffer's storage into the destination's storage at the given indices". A
source index without a record, or a destination index that is not below the
capacity, is outside the storage: the model fails there. -/
def copyPointFast (dst : PointBuffer) (destPointIndex srcPointIndex : Nat)
    (srcPointBuffer : PointBuffer) : Except Error PointBuffer :=
  match srcPointBuffer.m_data[srcPointIndex]? with
  | none => Except.error Error.src_out_of_bounds
  | some record =>
    if destPointIndex < dst.m_capacity then
      Except.ok { dst with m_data := dst.m_data.set destPointIndex record }
    else
      Except.error Error.dst_out_of_bounds

/-- Modelled from the spec: `PointBuffer::setNumPoints(n)`, which "fails if
`n > capacity` (a buffer-too-small condition)". -/
def setNumPoints (b : PointBuffer) (n : Nat) : Except Error PointBuffer :=
  if n > b.m_capacity then Except.error Error.buffer_too_small
  else Except.ok { b with m_numPoints := n }

end PointBuffer

/-! ## Bounds -/

/-- Modelled from the spec: `Range<double>` of `pdal/Range.hpp`, the "min/max
per axis" of a `Bounds`. -/
structure Range where
  m_minimum : ℚ
  m_maximum : ℚ
  deriving DecidableEq

/-- Modelled from the spec: a coordinate "lies within `[min, max]`
inclusive". -/
def Range.contains (r : Range) (v : ℚ) : Bool :=
  decide (r.m_minimum ≤ v) && decide (v ≤ r.m_maximum)

/-- Modelled from the spec: `Vector<double>` of `pdal/Vector.hpp`, the
coordinates of one point. -/
abbrev Vector := List ℚ

/-- Modelled from the spec: `Bounds<double>` of `pdal/Bounds.hpp`, "an
axis-aligned spatial region": one range per axis. -/
structure Bounds where
  m_ranges : List Range
  deriving DecidableEq

/-- Modelled from the spec: `Bounds::contains(point)` "is true iff every axis
coordinate lies within `[min, max]` inclusive on that axis"; the point has the
axes of the bounds. -/
def Bounds.contains (b : Bounds) (point : Vector) : Bool :=
  point.length == b.m_ranges.length &&
    (List.zipWith Range.contains b.m_ranges point).all id

/-! ## CropFilter -/

/-- The data member of `class CropFilter` that `processBuffer` reads. -/
structure CropFilter where
  m_bounds : Bounds
  deriving DecidableEq

namespace CropFilter

/-- The getter `CropFilter::getBounds`. -/
def getBounds (f : CropFilter) : Bounds := f.m_bounds

/-- The coordinate read of the floating-point loop of `processBuffer`: three
`getField<double>` calls and `Vector<double> point(x,y,z)`. -/
def readPointDouble (srcData : PointBuffer) (fieldX fieldY fieldZ : Nat) (srcIndex : Nat) :
    Except Error Vector := do
  let x ← srcData.getField_double srcIndex fieldX
  let y ← srcData.getField_double srcIndex fieldY
  let z ← srcData.getField_double srcIndex fieldZ
  pure [x, y, z]

/-- The coordinate read of the integer loop of `processBuffer`: three
`getField<boost::int32_t>` calls, `applyScaling` on `xdim`, `ydim`, `zdim`, and
`Vector<double> point(x,y,z)`. -/
def readPointInt (srcData : PointBuffer) (fieldX fieldY fieldZ : Nat)
    (xdim ydim zdim : Dimension) (srcIndex : Nat) : Except Error Vector := do
  let xi ← srcData.getField_int32 srcIndex fieldX
  let yi ← srcData.getField_int32 srcIndex fieldY
  let zi ← srcData.getField_int32 srcIndex fieldZ
  let x := xdim.applyScaling xi
  let y := ydim.applyScaling yi
  let z := zdim.applyScaling zi
  pure [x, y, z]

/-- The `for` loop of `processBuffer`, which has the same body in both
branches but for the coordinate read `readPoint`. `remaining` is
`numSrcPoints - srcIndex`; the state is `(dstData, dstIndex, numPointsAdded)`.
The two counters are `uint32_t` in the source and cannot wrap: `dstIndex` is
below the capacity when it is incremented, and `numPointsAdded` is at most
`numSrcPoints`. -/
def cropLoop (bounds : Bounds) (readPoint : Nat → Except Error Vector) (srcData : PointBuffer) :
    (remaining : Nat) → (srcIndex : Nat) → PointBuffer × Nat × Nat →
    Except Error (PointBuffer × Nat × Nat)
  | 0, _, state => Except.ok state
  | remaining + 1, srcIndex, (dstData, dstIndex, numPointsAdded) =>
    match readPoint srcIndex with
    | Except.error e => Except.error e
    | Except.ok point =>
      if bounds.contains point then
        match dstData.copyPointFast dstIndex srcIndex srcData with
        | Except.error e => Except.error e
        | Except.ok dstData1 =>
          match dstData1.setNumPoints (dstIndex + 1) with
          | Except.error e => Except.error e
          | Except.ok dstData2 =>
            cropLoop bounds readPoint srcData remaining (srcIndex + 1)
              (dstData2, dstIndex + 1, numPointsAdded + 1)
      else
        cropLoop bounds readPoint srcData remaining (srcIndex + 1)
          (dstData, dstIndex, numPointsAdded)

/-- The method `CropFilter::processBuffer`: the destination buffer, taken by
reference in the source, is returned with the count. In the integer branch all three of
`xdim`, `ydim`, `zdim` are looked up under `DimensionId::X_i32`, as in the
source. -/
def processBuffer (f : CropFilter) (dstData srcData : PointBuffer) :
    Except Error (PointBuffer × Nat) := do
  let schemaLayout := dstData.getSchemaLayout
  let isDouble := schemaLayout.getSchema.hasDimension DimensionId.X_f64
  if !(isDouble || (!isDouble && schemaLayout.getSchema.hasDimension DimensionId.X_i32)) then
    throw Error.assert_schema
  let bounds := f.getBounds
  let numSrcPoints := srcData.getNumPoints
  let dstIndex := dstData.getNumPoints
  let numPointsAdded := 0
  let (dstData1, dstIndex1, numPointsAdded1) ←
    if isDouble then do
      let fieldX ← schemaLayout.getDimensionIndex DimensionId.X_f64
      let fieldY ← schemaLayout.getDimensionIndex DimensionId.Y_f64
      let fieldZ ← schemaLayout.getDimensionIndex DimensionId.Z_f64
      cropLoop bounds (readPointDouble srcData fieldX fieldY fieldZ) srcData
        numSrcPoints 0 (dstData, dstIndex, numPointsAdded)
    else do
      let fieldX ← schemaLayout.getDimensionIndex DimensionId.X_i32
      let fieldY ← schemaLayout.getDimensionIndex DimensionId.Y_i32
      let fieldZ ← schemaLayout.getDimensionIndex DimensionId.Z_i32
      let xdim ← schemaLayout.getSchema.getDimension DimensionId.X_i32
      let ydim ← schemaLayout.getSchema.getDimension DimensionId.X_i32
      let zdim ← schemaLayout.getSchema.getDimension DimensionId.X_i32
      cropLoop bounds (readPointInt srcData fieldX fieldY fieldZ xdim ydim zdim) srcData
        numSrcPoints 0 (dstData, dstIndex, numPointsAdded)
  if !(dstIndex1 ≤ dstData1.getCapacity) then
    throw Error.assert_capacity
  pure (dstData1, numPointsAdded1)

end CropFilter

/-! ## Dimension: identity, flags, equality, serialization -/

namespace Dimension

/-- The getter `Dimension::getId`. -/
def getId (d : Dimension) : DimensionId := d.m_id

/-- The getter `Dimension::getFlags`. -/
def getFlags (d : Dimension) : Nat := d.m_flags

/-- The setter `Dimension::setFlags`. The argument is a `boost::uint32_t`. -/
def setFlags (d : Dimension) (flags : Nat) : Dimension := { d with m_flags := flags }

/-- The predicate `Dimension::isValid`: `m_flags != Invalid`. -/
def isValid (d : Dimension) : Bool := d.m_flags != Invalid

/-- The predicate `Dimension::isRead`: `(m_flags & IsRead) == IsRead`. -/
def isRead (d : Dimension) : Bool := (d.m_flags &&& IsRead) == IsRead

/-- The predicate `Dimension::isWritten`: `(m_flags & IsWritten) == IsWritten`. -/
def isWritten (d : Dimension) : Bool := (d.m_flags &&& IsWritten) == IsWritten

/-- The predicate `Dimension::isIgnored`: `(m_flags & IsIgnored) == IsIgnored`. -/
def isIgnored (d : Dimension) : Bool := (d.m_flags &&& IsIgnored) == IsIgnored

/-- The getter `Dimension::getDataType`. -/
def getDataType (d : Dimension) : DataType := d.m_dataType

/-- The getter `Dimension::getByteSize`. -/
def getByteSize (d : Dimension) : Nat := d.m_byteSize

/-- The getter `Dimension::getDescription`. -/
def getDescription (d : Dimension) : String := d.m_description

/-- The getter `Dimension::getEndianness`. -/
def getEndianness (d : Dimension) : EndianType := d.m_endian

/-- The setter `Dimension::setEndianness`. -/
def setEndianness (d : Dimension) (v : EndianType) : Dimension := { d with m_endian := v }

/-- Modelled from the spec: `Dimension::getName`, declared in the header and
defined in `Dimension.cpp`; it returns the name. -/
def getName (d : Dimension) : String := d.m_name

/-- Modelled from the spec: `Dimension::getDataTypeSize`, a "pure function of
the datatype enumeration": the byte size of the type, with the widths the
enumeration documents (`Pointer` 64 bits, `Float` 32 bits, `Double` 64 bits). -/
def getDataTypeSize : DataType → Nat
  | DataType.Int8 | DataType.Uint8 => 1
  | DataType.Int16 | DataType.Uint16 => 2
  | DataType.Int32 | DataType.Uint32 | DataType.Float => 4
  | DataType.Int64 | DataType.Uint64 | DataType.Pointer | DataType.Double => 8
  | DataType.Undefined => 0

/-- Modelled from the spec: `Dimension::getDataTypeName`, the "symbolic name,
e.g. "Int32"" of the type: the name of the enumerator. -/
def getDataTypeName : DataType → String
  | DataType.Int8 => "Int8"
  | DataType.Uint8 => "Uint8"
  | DataType.Int16 => "Int16"
  | DataType.Uint16 => "Uint16"
  | DataType.Int32 => "Int32"
  | DataType.Uint32 => "Uint32"
  | DataType.Int64 => "Int64"
  | DataType.Uint64 => "Uint64"
  | DataType.Pointer => "Pointer"
  | DataType.Float => "Float"
  | DataType.Double => "Double"
  | DataType.Undefined => "Undefined"

/-- Modelled from the spec: the constructor `Dimension(id, datatype, name,
description)`, defined in `Dimension.cpp`. The byte size is "derived from
datatype", the endianness is "default little", and a new dimension has no flag
set, range 0.0, scale 0 (the value the unit test reads back), offset 0 and the
precision flag off. -/
def construct (id : DimensionId) (datatype : DataType) (name description : String) :
    Dimension :=
  { m_dataType := datatype, m_id := id, m_name := name, m_flags := Invalid,
    m_endian := EndianType.Endian_Little, m_byteSize := getDataTypeSize datatype,
    m_description := description, m_min := 0, m_max := 0, m_precise := false,
    m_numericScale := 0, m_numericOffset := 0 }

/-- Modelled from the spec: the copy constructor `Dimension(Dimension const&)`,
defined in `Dimension.cpp`: a dimension is "copied by value". -/
def copy (other : Dimension) : Dimension := other

/-- Modelled from the spec: `Dimension::operator==`, defined in
`Dimension.cpp`: "Equality compares id, datatype, name, flags, endianness —
not min/max/description." -/
def operator_eq (d other : Dimension) : Bool :=
  d.m_id == other.m_id && d.m_dataType == other.m_dataType && d.m_name == other.m_name &&
    d.m_flags == other.m_flags && d.m_endian == other.m_endian

/-- Modelled from the spec: `Dimension::operator!=`, defined in
`Dimension.cpp`; the spec gives equality only, and inequality is taken as its
negation. -/
def operator_ne (d other : Dimension) : Bool := !(d.operator_eq other)

end Dimension

/-- Modelled from the spec: the constructor `Dimension(DimensionId::Id)` at
`X_i32`, which "will use table to lookup datatype, description, etc"; the
entry of the table is the one the unit test reads back: name `X`, type
`Int32`, and the description below. -/
def dimensionX_i32 : Dimension :=
  Dimension.construct DimensionId.X_i32 DataType.Int32 "X"
    "x coordinate as a long integer. You must use the scale and offset information of the header to determine the double value."

/-- The value of one node of a diagnostic tree. -/
inductive PTreeValue where
  | text (s : String)
  | size (n : Nat)
  | number (v : ℚ)
  | flag (b : Bool)
  deriving DecidableEq

/-- Modelled from the spec: `Dimension::toPTree`, defined in `Dimension.cpp`:
the "structured tree" with the fields "`name`, `datatype` (symbolic name, e.g.
"Int32"), `description`, `bytesize`, `endianness` ("little"/"big"), `scale`,
`isValid`", in this order. -/
def Dimension.toPTree (d : Dimension) : List (String × PTreeValue) :=
  [("name", PTreeValue.text d.getName),
   ("datatype", PTreeValue.text (Dimension.getDataTypeName d.getDataType)),
   ("description", PTreeValue.text d.getDescription),
   ("bytesize", PTreeValue.size d.getByteSize),
   ("endianness", PTreeValue.text
      (match d.getEndianness with
       | EndianType.Endian_Little => "little"
       | EndianType.Endian_Big => "big")),
   ("scale", PTreeValue.number d.getNumericScale),
   ("isValid", PTreeValue.flag d.isValid)]

/-! ## Options and the stage lifecycle -/

/-- The value of one option: a spatial region, or any other value as text. -/
inductive OptionValue where
  | bounds (b : Bounds)
  | text (s : String)
  deriving DecidableEq

/-- Modelled from the spec: `class Option` of `pdal/Options.hpp`, one
configuration key with its value and description. -/
structure StageOption where
  m_name : String
  m_value : OptionValue
  m_description : String
  deriving DecidableEq

/-- Modelled from the spec: `class Options` of `pdal/Options.hpp`, "an Options
set". -/
structure Options where
  m_options : List StageOption
  deriving DecidableEq

namespace Options

/-- Modelled from the spec: `Options::none()`, the set with no option. -/
def none : Options := { m_options := [] }

/-- Modelled from the spec: `Options::add(option)`. -/
def add (o : Options) (option : StageOption) : Options :=
  { m_options := o.m_options ++ [option] }

/-- The names of the options of the set. -/
def keys (o : Options) : List String := o.m_options.map (fun option => option.m_name)

/-- Modelled from the spec: `Options::getValueOrThrow<Bounds<double> >(name)`:
the value of the option with this name, and a failure when the set has no
such option (or its value is not a region). -/
def getValueOrThrow_Bounds (o : Options) (name : String) : Except Error Bounds :=
  match o.m_options.find? (fun option => option.m_name == name) with
  | some option =>
    match option.m_value with
    | OptionValue.bounds b => Except.ok b
    | OptionValue.text _ => Except.error Error.option_not_found
  | Option.none => Except.error Error.option_not_found

end Options

/-- Modelled from the spec: the point-count type of a stage, for which
"`Unknown` is a valid value". -/
inductive PointCountType where
  | PointCount_Fixed | PointCount_Unknown
  deriving DecidableEq

/-- Modelled from the spec: the state `class Stage` keeps for every stage:
the lifecycle state (`Uninitialized` or `Initialized`), the working bounds,
and the "point-count estimate" with its type. -/
structure Stage where
  m_initialized : Bool
  m_bounds : Bounds
  m_numPoints : Nat
  m_pointCountType : PointCountType
  deriving DecidableEq

namespace Stage

/-- Modelled from the spec: `Filter::initialize()`, the step
`Uninitialized → Initialized` of the base class; "calling it more than once is
idempotent". -/
def initialise (s : Stage) : Stage := { s with m_initialized := true }

/-- Modelled from the spec: `Stage::setBounds`. -/
def setBounds (s : Stage) (bounds : Bounds) : Stage := { s with m_bounds := bounds }

/-- Modelled from the spec: `Stage::setNumPoints`. -/
def setNumPoints (s : Stage) (n : Nat) : Stage := { s with m_numPoints := n }

/-- Modelled from the spec: `Stage::setPointCountType`. -/
def setPointCountType (s : Stage) (t : PointCountType) : Stage :=
  { s with m_pointCountType := t }

end Stage

/-- Modelled from the spec: `class CropFilterSequentialIterator` of
`pdal/filters/CropFilterIterator.hpp`, "a fresh cursor bound to the stage's
current configuration". -/
structure CropFilterSequentialIterator where
  m_cropFilter : CropFilter
  deriving DecidableEq

namespace CropFilter

/-- The constructor `CropFilter(Stage& prevStage, const Options& options)`:
the member `m_bounds` is read from the option `bounds` in the initializer
list, so a failure of the read is a failure of the construction. -/
def fromOptions (options : Options) : Except Error CropFilter := do
  let bounds ← options.getValueOrThrow_Bounds "bounds"
  pure { m_bounds := bounds }

/-- The constructor `CropFilter(Stage& prevStage, Bounds<double> const& bounds)`. -/
def fromBounds (bounds : Bounds) : CropFilter := { m_bounds := bounds }

/-- The method `CropFilter::initialize`, on the state of the base class:
`Filter::initialize()`, then `setBounds(m_bounds)`, `setNumPoints(0)` and
`setPointCountType(PointCount_Unknown)`. The members of the filter itself are
not assigned. (The name is respelled: the source's is a reserved word.) -/
def initialise (f : CropFilter) (stage : Stage) : Stage :=
  let s1 := Stage.initialise stage
  let s2 := s1.setBounds f.m_bounds
  let s3 := s2.setNumPoints 0
  s3.setPointCountType PointCountType.PointCount_Unknown

/-- The method `CropFilter::getDefaultOptions`. The default-constructed
`Bounds<double>()` has no range. -/
def getDefaultOptions : Options :=
  let options : Options := { m_options := [] }
  let bounds : StageOption :=
    { m_name := "bounds", m_value := OptionValue.bounds { m_ranges := [] },
      m_description := "bounds to crop to" }
  options.add bounds

/-- The method `CropFilter::createSequentialIterator`:
`new CropFilterSequentialIterator(*this)`. -/
def createSequentialIterator (f : CropFilter) : CropFilterSequentialIterator :=
  { m_cropFilter := f }

end CropFilter

/-! ## The arithmetic of `double`

The value of a finite `double` is a rational, and an operation on doubles
returns the exact result rounded to the nearest double, a tie going to the
one with the even significand (the default rounding of IEEE 754 binary64).
The definitions keep to the finite range: a result beyond `DBL_MAX` stands
for an overflow and is excluded where it matters. -/

/-- The integer nearest to `x`; a tie goes to the even one. -/
def roundHalfEven (x : ℚ) : Int :=
  if x - ⌊x⌋ < 1 / 2 then ⌊x⌋
  else if 1 / 2 < x - ⌊x⌋ then ⌊x⌋ + 1
  else if ⌊x⌋ % 2 = 0 then ⌊x⌋ else ⌊x⌋ + 1

/-- The multiple of `2 ^ u` nearest to `q`; a tie goes to the even multiple. -/
def roundToGrid (u : Int) (q : ℚ) : ℚ :=
  (roundHalfEven (q / 2 ^ u) : ℚ) * 2 ^ u

/-- The exponent of the spacing of the doubles around `q`: 52 below the
exponent of `q` (a significand of 53 bits), and `-1074` in the subnormal
range. -/
def ulpExponent (q : ℚ) : Int :=
  max (Int.log 2 |q| - 52) (-1074)

/-- The double nearest to `q`, for `q` in the finite range. -/
def roundDouble (q : ℚ) : ℚ :=
  roundToGrid (ulpExponent q) q

/-- The constant `std::numeric_limits<double>::max()`, the largest finite
`double`, `(2 ^ 53 - 1) * 2 ^ 971`. -/
def DBL_MAX : ℚ := (2 ^ 53 - 1) * 2 ^ 971

/-- The method `Dimension::applyScaling<T>` in the arithmetic of `double`:
the conversion `static_cast<double>(v)`, the product with `m_numericScale` and
the sum with `m_numericOffset` are each rounded to the nearest double. -/
def Dimension.applyScalingDouble (d : Dimension) (v : Int) : ℚ :=
  roundDouble (roundDouble (roundDouble (v : ℚ) * d.m_numericScale) + d.m_numericOffset)

/-- No step of `applyScalingDouble` at `v` overflows: the converted value, the
product and the sum are finite doubles. -/
def Dimension.applyScalingFinite (d : Dimension) (v : Int) : Prop :=
  |roundDouble (v : ℚ)| ≤ DBL_MAX ∧
  |roundDouble (roundDouble (v : ℚ) * d.m_numericScale)| ≤ DBL_MAX ∧
  |d.applyScalingDouble v| ≤ DBL_MAX

instance (d : Dimension) (v : Int) : Decidable (d.applyScalingFinite v) := by
  unfold Dimension.applyScalingFinite
  infer_instance

/-! ## Vocabulary of the statements

Nothing below is code of the repository: these definitions name the notions
the properties are stated with, and the concrete data of the scenarios. -/

/-- One call of a mutator of the scale, the offset or the precision flag. -/
inductive Mutator where
  | setNumericScale (v : ℚ)
  | setNumericOffset (v : ℚ)
  | isFinitePrecision (v : Bool)
  deriving DecidableEq

namespace Mutator

/-- The dimension after the call. -/
def apply : Mutator → Dimension → Dimension
  | setNumericScale v, d => d.setNumericScale v
  | setNumericOffset v, d => d.setNumericOffset v
  | isFinitePrecision v, d => d.setFinitePrecision v

/-- Whether the call is `setNumericScale` or `setNumericOffset`. -/
def isValueSetter : Mutator → Bool
  | setNumericScale _ => true
  | setNumericOffset _ => true
  | isFinitePrecision _ => false

/-- Whether the call passes a value that is not approximately zero to
`setNumericScale` or `setNumericOffset`. -/
def setsOffZero : Mutator → Bool
  | setNumericScale v => !Utils.compare_approx v 0 DBL_MIN
  | setNumericOffset v => !Utils.compare_approx v 0 DBL_MIN
  | isFinitePrecision _ => false

end Mutator

/-- The dimension after a sequence of mutator calls, first call first. -/
def Dimension.run (d : Dimension) (calls : List Mutator) : Dimension :=
  calls.foldl (fun d m => m.apply d) d

/-- The flag is on whenever the scale or the offset is not approximately
zero. -/
def PreciseWhenOffZero (d : Dimension) : Prop :=
  (Utils.compare_approx d.m_numericScale 0 DBL_MIN = false ∨
   Utils.compare_approx d.m_numericOffset 0 DBL_MIN = false) → d.m_precise = true

/-- An `Int32` dimension with the given id, name, scale and offset, flags
clear, little-endian, precision flag off. -/
def int32Dimension (id : DimensionId) (name : String) (scale offset : ℚ) : Dimension :=
  { m_dataType := DataType.Int32, m_id := id, m_name := name, m_flags := 0,
    m_endian := EndianType.Endian_Little, m_byteSize := 4, m_description := "",
    m_min := 0, m_max := 0, m_precise := false,
    m_numericScale := scale, m_numericOffset := offset }

/-- A `Double` dimension with the given id and name, scale and offset zero. -/
def doubleDimension (id : DimensionId) (name : String) : Dimension :=
  { m_dataType := DataType.Double, m_id := id, m_name := name, m_flags := 0,
    m_endian := EndianType.Endian_Little, m_byteSize := 8, m_description := "",
    m_min := 0, m_max := 0, m_precise := false,
    m_numericScale := 0, m_numericOffset := 0 }

namespace CropFilter

/-- Whether the loop appends source point `i`: the read succeeds and the
bounds contain the point read. -/
def selects (bounds : Bounds) (readPoint : Nat → Except Error Vector) (i : Nat) : Bool :=
  match readPoint i with
  | Except.ok point => bounds.contains point
  | Except.error _ => false

/-- The source indices `s, s+1, ..., s+n-1` that the loop appends, in
increasing order. -/
def selected (bounds : Bounds) (readPoint : Nat → Except Error Vector) (s n : Nat) : List Nat :=
  (List.range' s n).filter (selects bounds readPoint)

/-- The last step of `processBuffer` on the outcome of the loop: the closing
assertion and the return of the count. -/
def finish : Except Error (PointBuffer × Nat × Nat) → Except Error (PointBuffer × Nat)
  | Except.error e => Except.error e
  | Except.ok (dstData, dstIndex, numPointsAdded) =>
    if dstIndex ≤ dstData.m_capacity then Except.ok (dstData, numPointsAdded)
    else Except.error Error.assert_capacity

end CropFilter

/-- The coordinates a record stores as `double`s at three field positions,
when it has a `double` at each. -/
def coords_f64 (fx fy fz : Nat) (record : PointRecord) : Option Vector :=
  match record[fx]?, record[fy]?, record[fz]? with
  | some (FieldValue.f64 x), some (FieldValue.f64 y), some (FieldValue.f64 z) => some [x, y, z]
  | _, _, _ => none

/-- The raw coordinates a record stores as 32-bit integers at three field
positions, when it has such an integer at each. -/
def coords_i32 (fx fy fz : Nat) (record : PointRecord) : Option (Int × Int × Int) :=
  match record[fx]?, record[fy]?, record[fz]? with
  | some (FieldValue.i32 x), some (FieldValue.i32 y), some (FieldValue.i32 z) => some (x, y, z)
  | _, _, _ => none

/-- The `double` coordinates of point `i` of a buffer. -/
def PointBuffer.xyz_f64 (b : PointBuffer) (fx fy fz i : Nat) : Option Vector :=
  (b.m_data[i]?).bind (coords_f64 fx fy fz)

/-- The raw integer coordinates of point `i` of a buffer. -/
def PointBuffer.xyz_i32 (b : PointBuffer) (fx fy fz i : Nat) : Option (Int × Int × Int) :=
  (b.m_data[i]?).bind (coords_i32 fx fy fz)

/-- The indices below `numPoints` of the points of a buffer whose `double`
coordinates the bounds contain, in increasing order. -/
def containedIndices (bounds : Bounds) (b : PointBuffer) (fx fy fz : Nat) : List Nat :=
  (List.range b.m_numPoints).filter (fun i =>
    match b.xyz_f64 fx fy fz i with
    | some point => bounds.contains point
    | none => false)

/-- The real coordinates of point `i` of a buffer of raw integers, each axis
scaled with its own dimension. -/
def PointBuffer.scaledPoint (b : PointBuffer) (fx fy fz : Nat) (xdim ydim zdim : Dimension)
    (i : Nat) : Option Vector :=
  match b.xyz_i32 fx fy fz i with
  | some (xi, yi, zi) => some [xdim.applyScaling xi, ydim.applyScaling yi, zdim.applyScaling zi]
  | none => none

/-- The indices below `numPoints` of the points of a buffer of raw integers
whose real coordinates, each axis scaled with its own dimension, the bounds
contain. -/
def containedScaledIndices (bounds : Bounds) (b : PointBuffer) (fx fy fz : Nat)
    (xdim ydim zdim : Dimension) : List Nat :=
  (List.range b.m_numPoints).filter (fun i =>
    match b.scaledPoint fx fy fz xdim ydim zdim i with
    | some point => bounds.contains point
    | none => false)

/-- The value `removeScaling<T>` holds in `output` before its range test: the
descaled value, rounded and converted to `T`. -/
def Dimension.descaled (T : IntegerType) (d : Dimension) (v : ℚ) : Int :=
  T.static_cast (Utils.sround ((v - d.m_numericOffset) / d.m_numericScale))

/-- The life of a crop stage configured from an `Options` set, in the order
the lifecycle prescribes: construction, then `initialize()` on the state of
the base class, then the creation of the iterator. -/
def CropFilter.openFromOptions (options : Options) (stage : Stage) :
    Except Error (Stage × CropFilterSequentialIterator) := do
  let f ← CropFilter.fromOptions options
  let stage1 := f.initialise stage
  pure (stage1, f.createSequentialIterator)

/-! ### Data of the scenarios -/

/-- The layout of a schema with the three `double` coordinates X, Y, Z. -/
def doubleLayout : SchemaLayout :=
  { m_schema := { m_dimensions :=
      [doubleDimension DimensionId.X_f64 "X", doubleDimension DimensionId.Y_f64 "Y",
       doubleDimension DimensionId.Z_f64 "Z"] } }

/-- The layout of a schema with the three `Int32` coordinates X, Y, Z, each
with its own scale; the offsets are zero. -/
def int32Layout (scaleX scaleY scaleZ : ℚ) : SchemaLayout :=
  { m_schema := { m_dimensions :=
      [int32Dimension DimensionId.X_i32 "X" scaleX 0, int32Dimension DimensionId.Y_i32 "Y" scaleY 0,
       int32Dimension DimensionId.Z_i32 "Z" scaleZ 0] } }

/-- A record of three `double` coordinates. -/
def doublePoint (x y z : ℚ) : PointRecord :=
  [FieldValue.f64 x, FieldValue.f64 y, FieldValue.f64 z]

/-- A record of three raw `Int32` coordinates. -/
def int32Point (x y z : Int) : PointRecord :=
  [FieldValue.i32 x, FieldValue.i32 y, FieldValue.i32 z]

/-- A buffer that is full: it holds the given records and has no spare slot. -/
def fullBuffer (layout : SchemaLayout) (records : List PointRecord) : PointBuffer :=
  { m_schemaLayout := layout, m_capacity := records.length, m_numPoints := records.length,
    m_data := records }

/-- The record of a layout with every field zero. -/
def zeroRecord (layout : SchemaLayout) : PointRecord :=
  layout.m_schema.m_dimensions.map (fun d =>
    match d.m_dataType with
    | DataType.Double => FieldValue.f64 0
    | DataType.Int32 => FieldValue.i32 0
    | _ => FieldValue.raw (List.replicate d.m_byteSize 0))

/-- A buffer with no point yet: every slot of the storage holds the zero
record. -/
def emptyBuffer (layout : SchemaLayout) (capacity : Nat) : PointBuffer :=
  { m_schemaLayout := layout, m_capacity := capacity, m_numPoints := 0,
    m_data := List.replicate capacity (zeroRecord layout) }

/-- The cube with the same range `[lo, hi]` on each of the three axes. -/
def cube (lo hi : ℚ) : Bounds :=
  { m_ranges := [⟨lo, hi⟩, ⟨lo, hi⟩, ⟨lo, hi⟩] }

/-- The source of the floating-point crop scenario: the five points
`(0,0,0), (5,5,5), (-1,-1,-1), (10,0,0), (3,3,3)`. -/
def scenarioDoubleSource : PointBuffer :=
  fullBuffer doubleLayout
    [doublePoint 0 0 0, doublePoint 5 5 5, doublePoint (-1) (-1) (-1), doublePoint 10 0 0,
     doublePoint 3 3 3]

/-- The source of the integer crop scenario: the five raw points
`(0,0,0), (500,500,500), (-100,-100,-100), (1000,0,0), (300,300,300)` under
scale 0.01 and offset 0 on every axis. -/
def scenarioInt32Source : PointBuffer :=
  fullBuffer (int32Layout (1 / 100) (1 / 100) (1 / 100))
    [int32Point 0 0 0, int32Point 500 500 500, int32Point (-100) (-100) (-100),
     int32Point 1000 0 0, int32Point 300 300 300]

/-- A source of one raw point `(1,1,1)` whose Y axis has scale 2 while X and Z
have scale 1: its real coordinates are `(1,2,1)`. -/
def skewedInt32Source : PointBuffer :=
  fullBuffer (int32Layout 1 2 1) [int32Point 1 1 1]

/-- A destination that already holds one point, `(9,9,9)`, and has five free
slots. -/
def scenarioDestination : PointBuffer :=
  { m_schemaLayout := doubleLayout, m_capacity := 6, m_numPoints := 1,
    m_data := doublePoint 9 9 9 :: List.replicate 5 (zeroRecord doubleLayout) }

/-- What the floating-point crop scenario leaves in an empty destination of
capacity 5: the three contained points, and two slots never written. -/
def scenarioCropped : PointBuffer :=
  { m_schemaLayout := doubleLayout, m_capacity := 5, m_numPoints := 3,
    m_data := [doublePoint 0 0 0, doublePoint 5 5 5, doublePoint 3 3 3,
      zeroRecord doubleLayout, zeroRecord doubleLayout] }

/-! # Theorems -/

/-! ## Rounding and conversion -/

theorem sround_intCast (n : Int) : Utils.sround (n : ℚ) = (n : ℚ) := by
  unfold Utils.sround
  split
  · have h : ⌊(n : ℚ) + 1 / 2⌋ = n := by
      rw [Int.floor_eq_iff]
      constructor <;> linarith
    rw [h]
  · have h : ⌈(n : ℚ) - 1 / 2⌉ = n := by
      rw [Int.ceil_eq_iff]
      constructor <;> linarith
    rw [h]

theorem static_cast_intCast (T : IntegerType) (n : Int) (hlo : T.min ≤ n) (hhi : n ≤ T.max) :
    T.static_cast (n : ℚ) = n := by
  unfold IntegerType.static_cast
  have hn : (if (n : ℚ) ≥ 0 then ⌊(n : ℚ)⌋ else ⌈(n : ℚ)⌉) = n := by
    split <;> simp
  simp only [hn]
  cases T <;>
    simp [IntegerType.min, IntegerType.max, IntegerType.isSigned, IntegerType.bits] at hlo hhi ⊢ <;>
    omega

theorem min_lt_max (T : IntegerType) : T.min < T.max := by
  cases T <;> simp [IntegerType.min, IntegerType.max, IntegerType.isSigned, IntegerType.bits]

theorem descale_applyScaling (d : Dimension) (r : Int) (hs : d.m_numericScale ≠ 0) :
    (d.applyScaling r - d.m_numericOffset) / d.m_numericScale = (r : ℚ) := by
  unfold Dimension.applyScaling
  field_simp

/-- The round trip holds on the raw values strictly above the minimum of `T`. -/
theorem removeScaling_applyScaling (T : IntegerType) (d : Dimension) (r : Int)
    (hs : d.m_numericScale ≠ 0) (hlo : T.min < r) (hhi : r ≤ T.max) :
    d.removeScaling T (d.applyScaling r) = Except.ok r := by
  unfold Dimension.removeScaling
  simp only [descale_applyScaling d r hs, sround_intCast,
    static_cast_intCast T r (le_of_lt hlo) hhi]
  split
  · rfl
  · rw [if_neg (not_le.mpr hlo)]

/-- At the minimum of `T` the round trip raises, for every `T` and every
dimension with a non-zero scale. -/
theorem removeScaling_applyScaling_min (T : IntegerType) (d : Dimension)
    (hs : d.m_numericScale ≠ 0) :
    d.removeScaling T (d.applyScaling T.min) = Except.error Error.out_of_range := by
  unfold Dimension.removeScaling
  simp only [descale_applyScaling d T.min hs, sround_intCast,
    static_cast_intCast T T.min le_rfl (le_of_lt (min_lt_max T))]
  rw [if_neg (not_le.mpr (min_lt_max T)), if_pos le_rfl]

/-- C1 (code defect). The round trip
`removeScaling<T>(applyScaling(r))` does not return `r` at `r = min(T)`: with
scale 1 and offset 0 it raises `out_of_range` for `int32_t` at `-2147483648`,
and with scale 1/100 and offset 5 for `uint8_t` at `0`. -/
theorem roundtrip_raises_at_minimum :
    (int32Dimension DimensionId.X_i32 "X" 1 0).removeScaling IntegerType.int32_t
        ((int32Dimension DimensionId.X_i32 "X" 1 0).applyScaling (-2147483648))
      = Except.error Error.out_of_range ∧
    (int32Dimension DimensionId.X_i32 "X" (1 / 100) 5).removeScaling IntegerType.uint8_t
        ((int32Dimension DimensionId.X_i32 "X" (1 / 100) 5).applyScaling 0)
      = Except.error Error.out_of_range := by
  constructor
  · exact removeScaling_applyScaling_min IntegerType.int32_t _ (by simp [int32Dimension])
  · exact removeScaling_applyScaling_min IntegerType.uint8_t _ (by simp [int32Dimension])

/-- C2 (code defect). A rounded value outside the range of
`T` is not reported: with scale 1 and offset 0, `removeScaling<int8_t>(200)`
returns `-56` although 200 is above the maximum 127, and
`removeScaling<int8_t>(-200)` returns `56` although -200 is below the minimum
-128. -/
theorem removeScaling_out_of_range_returns :
    (int32Dimension DimensionId.X_i32 "X" 1 0).removeScaling IntegerType.int8_t 200
      = Except.ok (-56) ∧
    (int32Dimension DimensionId.X_i32 "X" 1 0).removeScaling IntegerType.int8_t (-200)
      = Except.ok 56 ∧
    Utils.sround ((200 - 0) / 1) = 200 ∧ Utils.sround ((-200 - 0) / 1) = -200 ∧
    IntegerType.max IntegerType.int8_t = 127 ∧ IntegerType.min IntegerType.int8_t = -128 := by
  have hc : ⌈(-(401 / 2) : ℚ)⌉ = -200 := by
    rw [Int.ceil_eq_iff]
    norm_num
  have hc2 : ⌈(-200 : ℚ)⌉ = -200 := by
    rw [Int.ceil_eq_iff]
    norm_num
  refine ⟨?_, ?_, ?_, ?_, ?_, ?_⟩
  · norm_num [Dimension.removeScaling, int32Dimension, Utils.sround, IntegerType.static_cast,
      IntegerType.max, IntegerType.min, IntegerType.isSigned, IntegerType.bits]
  · norm_num [Dimension.removeScaling, int32Dimension, Utils.sround, IntegerType.static_cast,
      IntegerType.max, IntegerType.min, IntegerType.isSigned, IntegerType.bits, hc, hc2]
  · norm_num [Utils.sround]
  · norm_num [Utils.sround, hc]
  · norm_num [IntegerType.max, IntegerType.isSigned, IntegerType.bits]
  · norm_num [IntegerType.min, IntegerType.isSigned, IntegerType.bits]

/-- C3 (code defect). A rounded value inside the range of
`T` is not always returned: with scale 1 and offset 0, `removeScaling<uint8_t>(0)`
raises `out_of_range` although the rounded value 0 is the minimum of `uint8_t`,
and `removeScaling<int8_t>(-128)` raises although -128 is the minimum of
`int8_t`; the value 255, the maximum of `uint8_t`, is returned. -/
theorem removeScaling_raises_in_range :
    (int32Dimension DimensionId.X_i32 "X" 1 0).removeScaling IntegerType.uint8_t 0
      = Except.error Error.out_of_range ∧
    (int32Dimension DimensionId.X_i32 "X" 1 0).removeScaling IntegerType.int8_t (-128)
      = Except.error Error.out_of_range ∧
    (int32Dimension DimensionId.X_i32 "X" 1 0).removeScaling IntegerType.uint8_t 255
      = Except.ok 255 ∧
    Utils.sround ((0 - 0) / 1) = 0 ∧ Utils.sround ((-128 - 0) / 1) = -128 ∧
    IntegerType.min IntegerType.uint8_t = 0 ∧ IntegerType.max IntegerType.uint8_t = 255 ∧
    IntegerType.min IntegerType.int8_t = -128 := by
  have h0 : ⌈(-(1 / 2) : ℚ)⌉ = 0 := by
    rw [Int.ceil_eq_iff]
    norm_num
  have h1 : ⌈(-(257 / 2) : ℚ)⌉ = -128 := by
    rw [Int.ceil_eq_iff]
    norm_num
  have h2 : ⌈(-128 : ℚ)⌉ = -128 := by
    rw [Int.ceil_eq_iff]
    norm_num
  refine ⟨?_, ?_, ?_, ?_, ?_, ?_, ?_, ?_⟩
  · norm_num [Dimension.removeScaling, int32Dimension, Utils.sround, IntegerType.static_cast,
      IntegerType.max, IntegerType.min, IntegerType.isSigned, IntegerType.bits, h0]
  · norm_num [Dimension.removeScaling, int32Dimension, Utils.sround, IntegerType.static_cast,
      IntegerType.max, IntegerType.min, IntegerType.isSigned, IntegerType.bits, h1, h2]
  · norm_num [Dimension.removeScaling, int32Dimension, Utils.sround, IntegerType.static_cast,
      IntegerType.max, IntegerType.min, IntegerType.isSigned, IntegerType.bits]
  · norm_num [Utils.sround, h0]
  · norm_num [Utils.sround, h1]
  · norm_num [IntegerType.min, IntegerType.isSigned, IntegerType.bits]
  · norm_num [IntegerType.max, IntegerType.isSigned, IntegerType.bits]
  · norm_num [IntegerType.min, IntegerType.isSigned, IntegerType.bits]

/-- C4. For every dimension and every raw integer value `v`, `applyScaling(v)`
is `v * numericScale + numericOffset` with the scale and offset the dimension
reports, and these are the values last set: after `setNumericScale(s)` and
`setNumericOffset(o)` the result is `v * s + o`. The method is `const`: it
returns the value only and the dimension is as it was. -/
theorem applyScaling_eq (d : Dimension) (v : Int) (s o : ℚ) :
    d.applyScaling v = (v : ℚ) * d.getNumericScale + d.getNumericOffset ∧
    ((d.setNumericScale s).setNumericOffset o).applyScaling v = (v : ℚ) * s + o := by
  constructor
  · rfl
  · unfold Dimension.applyScaling Dimension.setNumericOffset Dimension.setNumericScale
    split <;> split <;> rfl

/-! ## The precision flag -/

theorem DBL_MIN_pos : 0 < DBL_MIN := by
  unfold DBL_MIN
  positivity

theorem compare_approx_zero : Utils.compare_approx 0 0 DBL_MIN = true := by
  simp [Utils.compare_approx, le_of_lt DBL_MIN_pos]

theorem run_cons (d : Dimension) (m : Mutator) (calls : List Mutator) :
    d.run (m :: calls) = (m.apply d).run calls := rfl

theorem apply_precise (m : Mutator) (d : Dimension) (h : m.isValueSetter = true) :
    (m.apply d).m_precise = (d.m_precise || m.setsOffZero) := by
  cases m with
  | setNumericScale v =>
    simp only [Mutator.apply, Mutator.setsOffZero, Dimension.setNumericScale]
    cases Utils.compare_approx v 0 DBL_MIN <;> simp
  | setNumericOffset v =>
    simp only [Mutator.apply, Mutator.setsOffZero, Dimension.setNumericOffset]
    cases Utils.compare_approx v 0 DBL_MIN <;> simp
  | isFinitePrecision v => simp [Mutator.isValueSetter] at h

theorem run_precise (calls : List Mutator) :
    ∀ d : Dimension, (∀ m ∈ calls, m.isValueSetter = true) →
      (d.run calls).m_precise = (d.m_precise || calls.any Mutator.setsOffZero) := by
  induction calls with
  | nil => intro d _; simp [Dimension.run]
  | cons m rest ih =>
    intro d h
    rw [run_cons, ih (m.apply d) (fun x hx => h x (List.mem_cons_of_mem m hx)),
      apply_precise m d (h m (List.mem_cons_self m rest))]
    simp [Bool.or_assoc]

theorem apply_preciseWhenOffZero (m : Mutator) (d : Dimension) (h : m.isValueSetter = true)
    (hd : PreciseWhenOffZero d) : PreciseWhenOffZero (m.apply d) := by
  unfold PreciseWhenOffZero at hd ⊢
  cases m with
  | setNumericScale v =>
    simp only [Mutator.apply, Dimension.setNumericScale]
    cases hv : Utils.compare_approx v 0 DBL_MIN
    · simp
    · simp only [Bool.not_true, Bool.false_eq_true, if_false, hv]
      intro h2
      rcases h2 with h2 | h2
      · simp at h2
      · exact hd (Or.inr h2)
  | setNumericOffset v =>
    simp only [Mutator.apply, Dimension.setNumericOffset]
    cases hv : Utils.compare_approx v 0 DBL_MIN
    · simp
    · simp only [Bool.not_true, Bool.false_eq_true, if_false, hv]
      intro h2
      rcases h2 with h2 | h2
      · exact hd (Or.inl h2)
      · simp at h2
  | isFinitePrecision v => simp [Mutator.isValueSetter] at h

theorem run_preciseWhenOffZero (calls : List Mutator) :
    ∀ d : Dimension, (∀ m ∈ calls, m.isValueSetter = true) →
      PreciseWhenOffZero d → PreciseWhenOffZero (d.run calls) := by
  induction calls with
  | nil => intro d _ hd; simpa [Dimension.run] using hd
  | cons m rest ih =>
    intro d h hd
    rw [run_cons]
    exact ih (m.apply d) (fun x hx => h x (List.mem_cons_of_mem m hx))
      (apply_preciseWhenOffZero m d (h m (List.mem_cons_self m rest)) hd)

/-- C10, as stated, fails. From the dimension with scale 0, offset 0 and the
flag off: after `setNumericScale(1); setNumericScale(0)` the flag is on with
scale and offset both zero; after `isFinitePrecision(true)` alone likewise;
after `setNumericScale(1); isFinitePrecision(false)` the flag is off with
scale 1; and after `setNumericScale(DBL_MIN / 2)` the flag is off with a scale
that is not zero. -/
theorem precision_iff_fails :
    (¬ (((int32Dimension DimensionId.X_i32 "X" 0 0).run
            [Mutator.setNumericScale 1, Mutator.setNumericScale 0]).isFinitePrecision = true ↔
        (((int32Dimension DimensionId.X_i32 "X" 0 0).run
            [Mutator.setNumericScale 1, Mutator.setNumericScale 0]).getNumericScale ≠ 0 ∨
         ((int32Dimension DimensionId.X_i32 "X" 0 0).run
            [Mutator.setNumericScale 1, Mutator.setNumericScale 0]).getNumericOffset ≠ 0))) ∧
    (¬ (((int32Dimension DimensionId.X_i32 "X" 0 0).run
            [Mutator.isFinitePrecision true]).isFinitePrecision = true ↔
        (((int32Dimension DimensionId.X_i32 "X" 0 0).run
            [Mutator.isFinitePrecision true]).getNumericScale ≠ 0 ∨
         ((int32Dimension DimensionId.X_i32 "X" 0 0).run
            [Mutator.isFinitePrecision true]).getNumericOffset ≠ 0))) ∧
    (¬ (((int32Dimension DimensionId.X_i32 "X" 0 0).run
            [Mutator.setNumericScale 1, Mutator.isFinitePrecision false]).isFinitePrecision = true ↔
        (((int32Dimension DimensionId.X_i32 "X" 0 0).run
            [Mutator.setNumericScale 1, Mutator.isFinitePrecision false]).getNumericScale ≠ 0 ∨
         ((int32Dimension DimensionId.X_i32 "X" 0 0).run
            [Mutator.setNumericScale 1, Mutator.isFinitePrecision false]).getNumericOffset ≠ 0))) ∧
    (¬ (((int32Dimension DimensionId.X_i32 "X" 0 0).run
            [Mutator.setNumericScale (DBL_MIN / 2)]).isFinitePrecision = true ↔
        (((int32Dimension DimensionId.X_i32 "X" 0 0).run
            [Mutator.setNumericScale (DBL_MIN / 2)]).getNumericScale ≠ 0 ∨
         ((int32Dimension DimensionId.X_i32 "X" 0 0).run
            [Mutator.setNumericScale (DBL_MIN / 2)]).getNumericOffset ≠ 0))) := by
  have h1 : Utils.compare_approx 1 0 DBL_MIN = false := by
    simp only [Utils.compare_approx, DBL_MIN, decide_eq_false_iff_not]
    norm_num
  have h0 : Utils.compare_approx 0 0 DBL_MIN = true := compare_approx_zero
  have hpos := DBL_MIN_pos
  have h2 : Utils.compare_approx (DBL_MIN / 2) 0 DBL_MIN = true := by
    simp only [Utils.compare_approx, decide_eq_true_eq, sub_zero]
    rw [abs_of_pos (by linarith)]
    linarith
  have hne : DBL_MIN / 2 ≠ 0 := by
    intro h
    linarith
  refine ⟨?_, ?_, ?_, ?_⟩
  · simp [Dimension.run, Mutator.apply, Dimension.setNumericScale, Dimension.isFinitePrecision,
      Dimension.getNumericScale, Dimension.getNumericOffset, int32Dimension, h1, h0]
  · simp [Dimension.run, Mutator.apply, Dimension.setFinitePrecision,
      Dimension.isFinitePrecision, Dimension.getNumericScale, Dimension.getNumericOffset,
      int32Dimension]
  · simp [Dimension.run, Mutator.apply, Dimension.setNumericScale, Dimension.setFinitePrecision,
      Dimension.isFinitePrecision, Dimension.getNumericScale, Dimension.getNumericOffset,
      int32Dimension, h1]
  · simp [Dimension.run, Mutator.apply, Dimension.setNumericScale, Dimension.isFinitePrecision,
      Dimension.getNumericScale, Dimension.getNumericOffset, int32Dimension, h2, hne]

/-- C10, amended. In every state reached from a dimension with scale 0, offset
0 and the flag off by a sequence of `setNumericScale` and `setNumericOffset`
calls, `isFinitePrecision()` is true if the scale or the offset is not
approximately zero (differs from zero by more than `DBL_MIN`), and it is true
exactly when some call of the sequence passed a value that is not
approximately zero. -/
theorem precision_after_value_setters (d : Dimension) (calls : List Mutator)
    (hs : d.m_numericScale = 0) (ho : d.m_numericOffset = 0) (hp : d.m_precise = false)
    (hcalls : ∀ m ∈ calls, m.isValueSetter = true) :
    ((Utils.compare_approx (d.run calls).getNumericScale 0 DBL_MIN = false ∨
      Utils.compare_approx (d.run calls).getNumericOffset 0 DBL_MIN = false) →
        (d.run calls).isFinitePrecision = true) ∧
    ((d.run calls).isFinitePrecision = true ↔ ∃ m ∈ calls, m.setsOffZero = true) := by
  constructor
  · apply run_preciseWhenOffZero calls d hcalls
    intro h
    rw [hs, ho, compare_approx_zero] at h
    simp at h
  · unfold Dimension.isFinitePrecision
    rw [run_precise calls d hcalls, hp]
    simp

theorem precision_after_value_setters_witness :
    (int32Dimension DimensionId.X_i32 "X" 0 0).m_numericScale = 0 ∧
    (int32Dimension DimensionId.X_i32 "X" 0 0).m_numericOffset = 0 ∧
    (int32Dimension DimensionId.X_i32 "X" 0 0).m_precise = false ∧
    (∀ m ∈ [Mutator.setNumericScale (1 / 100), Mutator.setNumericOffset 0],
      m.isValueSetter = true) ∧
    ((Utils.compare_approx ((int32Dimension DimensionId.X_i32 "X" 0 0).run
          [Mutator.setNumericScale (1 / 100), Mutator.setNumericOffset 0]).getNumericScale
          0 DBL_MIN = false ∨
      Utils.compare_approx ((int32Dimension DimensionId.X_i32 "X" 0 0).run
          [Mutator.setNumericScale (1 / 100), Mutator.setNumericOffset 0]).getNumericOffset
          0 DBL_MIN = false) →
        ((int32Dimension DimensionId.X_i32 "X" 0 0).run
          [Mutator.setNumericScale (1 / 100), Mutator.setNumericOffset 0]).isFinitePrecision
          = true) ∧
    (((int32Dimension DimensionId.X_i32 "X" 0 0).run
          [Mutator.setNumericScale (1 / 100), Mutator.setNumericOffset 0]).isFinitePrecision
          = true ↔
      ∃ m ∈ [Mutator.setNumericScale (1 / 100), Mutator.setNumericOffset 0],
        m.setsOffZero = true) :=
  ⟨rfl, rfl, rfl, by simp [Mutator.isValueSetter],
    (precision_after_value_setters (int32Dimension DimensionId.X_i32 "X" 0 0)
      [Mutator.setNumericScale (1 / 100), Mutator.setNumericOffset 0] rfl rfl rfl
      (by simp [Mutator.isValueSetter])).1,
    (precision_after_value_setters (int32Dimension DimensionId.X_i32 "X" 0 0)
      [Mutator.setNumericScale (1 / 100), Mutator.setNumericOffset 0] rfl rfl rfl
      (by simp [Mutator.isValueSetter])).2⟩

/-! ## The crop loop -/

theorem take_succ_set {α : Type} (l : List α) (i : Nat) (a : α) (h : i < l.length) :
    (l.set i a).take (i + 1) = l.take i ++ [a] := by
  induction l generalizing i with
  | nil => simp at h
  | cons x xs ih =>
    cases i with
    | zero => simp
    | succ j =>
      simp only [List.length_cons, Nat.add_lt_add_iff_right] at h
      simp [ih j h]

namespace CropFilter

theorem selected_zero (bounds : Bounds) (readPoint : Nat → Except Error Vector) (s : Nat) :
    selected bounds readPoint s 0 = [] := by
  simp [selected]

theorem selected_succ_pos (bounds : Bounds) (readPoint : Nat → Except Error Vector) (s n : Nat)
    (h : selects bounds readPoint s = true) :
    selected bounds readPoint s (n + 1) = s :: selected bounds readPoint (s + 1) n := by
  simp [selected, List.range'_succ, List.filter_cons, h]

theorem selected_succ_neg (bounds : Bounds) (readPoint : Nat → Except Error Vector) (s n : Nat)
    (h : selects bounds readPoint s = false) :
    selected bounds readPoint s (n + 1) = selected bounds readPoint (s + 1) n := by
  simp [selected, List.range'_succ, List.filter_cons, h]

theorem selected_length_le (bounds : Bounds) (readPoint : Nat → Except Error Vector) (s n : Nat) :
    (selected bounds readPoint s n).length ≤ n := by
  unfold selected
  calc ((List.range' s n).filter (selects bounds readPoint)).length
      ≤ (List.range' s n).length := List.length_filter_le _ _
    _ = n := by simp

/-- The loop on a source whose reads succeed and a destination with room for
the selected points: it completes, and the destination holds the selected
source records from `di` on. -/
theorem cropLoop_ok (bounds : Bounds) (readPoint : Nat → Except Error Vector)
    (srcData : PointBuffer) :
    ∀ (n s : Nat) (dst : PointBuffer) (di added : Nat),
      (∀ i, s ≤ i → i < s + n → ∃ p, readPoint i = Except.ok p) →
      s + n ≤ srcData.m_data.length →
      dst.m_data.length = dst.m_capacity →
      di + (selected bounds readPoint s n).length ≤ dst.m_capacity →
      cropLoop bounds readPoint srcData n s (dst, di, added) =
        Except.ok
          ({ dst with
              m_numPoints :=
                if (selected bounds readPoint s n).length = 0 then dst.m_numPoints
                else di + (selected bounds readPoint s n).length
              m_data :=
                dst.m_data.take di ++
                  (selected bounds readPoint s n).map (fun i => srcData.m_data.getD i []) ++
                  dst.m_data.drop (di + (selected bounds readPoint s n).length) },
            di + (selected bounds readPoint s n).length,
            added + (selected bounds readPoint s n).length) := by
  intro n
  induction n with
  | zero =>
    intro s dst di added _ _ _ _
    simp [cropLoop, selected_zero]
  | succ n ih =>
    intro s dst di added hread hsrc hlen hcap
    obtain ⟨p, hp⟩ := hread s le_rfl (by omega)
    have hread' : ∀ i, s + 1 ≤ i → i < s + 1 + n → ∃ p, readPoint i = Except.ok p :=
      fun i h1 h2 => hread i (by omega) (by omega)
    rw [cropLoop]
    simp only [hp]
    by_cases hc : bounds.contains p = true
    · have hsel : selects bounds readPoint s = true := by simp [selects, hp, hc]
      rw [selected_succ_pos bounds readPoint s n hsel] at hcap ⊢
      simp only [List.length_cons] at hcap ⊢
      have hsl : s < srcData.m_data.length := by omega
      have hrec : srcData.m_data[s]? = some srcData.m_data[s] := List.getElem?_eq_getElem hsl
      have hdi : di < dst.m_capacity := by omega
      have hdl : di < dst.m_data.length := by omega
      simp only [hc, if_true, PointBuffer.copyPointFast, hrec, hdi, PointBuffer.setNumPoints]
      rw [if_neg (by omega)]
      simp only []
      rw [ih (s + 1) _ (di + 1) (added + 1) hread' (by omega) (by simpa using hlen)
        (by simpa using (by omega))]
      simp only [take_succ_set _ _ _ hdl]
      have hdrop : ∀ k, List.drop (di + (k + 1)) (dst.m_data.set di srcData.m_data[s]) =
          List.drop (di + (k + 1)) dst.m_data :=
        fun k => List.drop_set_of_lt _ _ (by omega)
      simp [hrec, Nat.add_assoc, Nat.add_comm 1, hdrop]
    · have hsel : selects bounds readPoint s = false := by simp [selects, hp, hc]
      rw [selected_succ_neg bounds readPoint s n hsel] at hcap ⊢
      simp only [hc]
      rw [ih (s + 1) dst di added hread' (by omega) hlen hcap]
      simp

/-- What every completed run of the loop satisfies, whatever the buffers:
both counters advance by the number of selected points, and the destination
keeps its capacity and layout and has `numPoints` set by the last append. -/
theorem cropLoop_result (bounds : Bounds) (readPoint : Nat → Except Error Vector)
    (srcData : PointBuffer) :
    ∀ (n s : Nat) (dst : PointBuffer) (di added : Nat) (r : PointBuffer × Nat × Nat),
      cropLoop bounds readPoint srcData n s (dst, di, added) = Except.ok r →
      r.2.1 = di + (selected bounds readPoint s n).length ∧
      r.2.2 = added + (selected bounds readPoint s n).length ∧
      r.1.m_capacity = dst.m_capacity ∧
      r.1.m_schemaLayout = dst.m_schemaLayout ∧
      r.1.m_numPoints =
        (if (selected bounds readPoint s n).length = 0 then dst.m_numPoints
         else di + (selected bounds readPoint s n).length) ∧
      ((selected bounds readPoint s n).length ≠ 0 →
        di + (selected bounds readPoint s n).length ≤ dst.m_capacity) := by
  intro n
  induction n with
  | zero =>
    intro s dst di added r h
    simp only [cropLoop, Except.ok.injEq] at h
    subst h
    simp [selected_zero]
  | succ n ih =>
    intro s dst di added r h
    rw [cropLoop] at h
    cases hp : readPoint s with
    | error e => simp [hp] at h
    | ok p =>
      simp only [hp] at h
      by_cases hc : bounds.contains p = true
      · have hsel : selects bounds readPoint s = true := by simp [selects, hp, hc]
        rw [selected_succ_pos bounds readPoint s n hsel]
        simp only [hc, if_true] at h
        cases hcp : dst.copyPointFast di s srcData with
        | error e => simp [hcp] at h
        | ok d1 =>
          simp only [hcp] at h
          cases hsn : d1.setNumPoints (di + 1) with
          | error e => simp [hsn] at h
          | ok d2 =>
            simp only [hsn] at h
            have hd1 : d1.m_capacity = dst.m_capacity ∧ d1.m_schemaLayout = dst.m_schemaLayout := by
              unfold PointBuffer.copyPointFast at hcp
              split at hcp
              · simp at hcp
              · split at hcp
                · simp only [Except.ok.injEq] at hcp
                  subst hcp
                  exact ⟨rfl, rfl⟩
                · simp at hcp
            have hd2 : d2.m_capacity = d1.m_capacity ∧ d2.m_schemaLayout = d1.m_schemaLayout ∧
                d2.m_numPoints = di + 1 ∧ di + 1 ≤ d1.m_capacity := by
              unfold PointBuffer.setNumPoints at hsn
              split at hsn
              · simp at hsn
              · simp only [Except.ok.injEq] at hsn
                subst hsn
                exact ⟨rfl, rfl, rfl, by omega⟩
            obtain ⟨h1, h2, h3, h4, h5, h6⟩ := ih (s + 1) d2 (di + 1) (added + 1) r h
            simp only [List.length_cons]
            refine ⟨by omega, by omega, by rw [h3, hd2.1, hd1.1], by rw [h4, hd2.2.1, hd1.2],
              ?_, ?_⟩
            · rw [h5]
              split
              · next hz => rw [hz, hd2.2.2.1]; simp
              · simp; omega
            · intro _
              by_cases hz : (selected bounds readPoint (s + 1) n).length = 0
              · rw [hz]
                have := hd2.2.2.2
                rw [hd1.1] at this
                omega
              · have := h6 hz
                rw [hd2.1, hd1.1] at this
                omega
      · have hsel : selects bounds readPoint s = false := by simp [selects, hp, hc]
        rw [selected_succ_neg bounds readPoint s n hsel]
        simp only [hc] at h
        exact ih (s + 1) dst di added r h

/-- With room for every source point, the loop fails only on a failed read. -/
theorem cropLoop_error (bounds : Bounds) (readPoint : Nat → Except Error Vector)
    (srcData : PointBuffer)
    (hread : ∀ i e, readPoint i = Except.error e → e = Error.src_out_of_bounds) :
    ∀ (n s : Nat) (dst : PointBuffer) (di added : Nat) (e : Error),
      di + n ≤ dst.m_capacity →
      cropLoop bounds readPoint srcData n s (dst, di, added) = Except.error e →
      e = Error.src_out_of_bounds := by
  intro n
  induction n with
  | zero =>
    intro s dst di added e _ h
    simp [cropLoop] at h
  | succ n ih =>
    intro s dst di added e hcap h
    rw [cropLoop] at h
    cases hp : readPoint s with
    | error e' =>
      simp only [hp, Except.error.injEq] at h
      subst h
      exact hread s e' hp
    | ok p =>
      simp only [hp] at h
      by_cases hc : bounds.contains p = true
      · simp only [hc, if_true] at h
        unfold PointBuffer.copyPointFast at h
        cases hrec : srcData.m_data[s]? with
        | none =>
          simp only [hrec, Except.error.injEq] at h
          exact h.symm
        | some record =>
          simp only [hrec] at h
          rw [if_pos (by omega)] at h
          simp only [PointBuffer.setNumPoints] at h
          rw [if_neg (by omega)] at h
          exact ih (s + 1) _ (di + 1) (added + 1) e (by simpa using (by omega)) h
      · simp only [hc] at h
        exact ih (s + 1) dst di added e (by omega) h

end CropFilter

/-! ## Schema lookups and coordinate reads -/

theorem getDimensionIndex_error (l : SchemaLayout) (id : DimensionId) (e : Error)
    (h : l.getDimensionIndex id = Except.error e) : e = Error.schema_error := by
  unfold SchemaLayout.getDimensionIndex at h
  simp only [] at h
  split at h
  · simp at h
  · simp only [Except.error.injEq] at h
    exact h.symm

theorem getDimension_error (s : Schema) (id : DimensionId) (e : Error)
    (h : s.getDimension id = Except.error e) : e = Error.schema_error := by
  unfold Schema.getDimension at h
  split at h
  · simp at h
  · simp only [Except.error.injEq] at h
    exact h.symm

theorem getDimensionIndex_hasDimension (l : SchemaLayout) (id : DimensionId) (i : Nat)
    (h : l.getDimensionIndex id = Except.ok i) : l.m_schema.hasDimension id = true := by
  unfold SchemaLayout.getDimensionIndex at h
  unfold Schema.hasDimension
  by_cases hlt : List.findIdx (fun d => d.m_id == id) l.m_schema.m_dimensions
      < l.m_schema.m_dimensions.length
  · rw [List.findIdx_lt_length] at hlt
    obtain ⟨d, hd, hp⟩ := hlt
    exact List.any_eq_true.mpr ⟨d, hd, hp⟩
  · simp [hlt] at h

namespace CropFilter

theorem readPointDouble_eq (src : PointBuffer) (fx fy fz i : Nat) :
    readPointDouble src fx fy fz i =
      match src.xyz_f64 fx fy fz i with
      | some point => Except.ok point
      | none => Except.error Error.src_out_of_bounds := by
  unfold readPointDouble PointBuffer.getField_double PointBuffer.xyz_f64 coords_f64
  cases src.m_data[i]? with
  | none => rfl
  | some record =>
    simp only [Option.some_bind]
    cases hx : record[fx]? with
    | none => rfl
    | some vx =>
      cases vx with
      | f64 x =>
        cases hy : record[fy]? with
        | none => rfl
        | some vy =>
          cases vy with
          | f64 y =>
            cases hz : record[fz]? with
            | none => rfl
            | some vz => cases vz <;> rfl
          | i32 _ => rfl
          | raw _ => rfl
      | i32 _ => rfl
      | raw _ => rfl

theorem readPointInt_eq (src : PointBuffer) (fx fy fz : Nat) (xdim ydim zdim : Dimension)
    (i : Nat) :
    readPointInt src fx fy fz xdim ydim zdim i =
      match src.scaledPoint fx fy fz xdim ydim zdim i with
      | some point => Except.ok point
      | none => Except.error Error.src_out_of_bounds := by
  unfold readPointInt PointBuffer.getField_int32 PointBuffer.scaledPoint PointBuffer.xyz_i32
    coords_i32
  cases src.m_data[i]? with
  | none => rfl
  | some record =>
    simp only [Option.some_bind]
    cases hx : record[fx]? with
    | none => rfl
    | some vx =>
      cases vx with
      | i32 x =>
        cases hy : record[fy]? with
        | none => rfl
        | some vy =>
          cases vy with
          | i32 y =>
            cases hz : record[fz]? with
            | none => rfl
            | some vz => cases vz <;> rfl
          | f64 _ => rfl
          | raw _ => rfl
      | f64 _ => rfl
      | raw _ => rfl

theorem readPointDouble_error (src : PointBuffer) (fx fy fz i : Nat) (e : Error)
    (h : readPointDouble src fx fy fz i = Except.error e) : e = Error.src_out_of_bounds := by
  rw [readPointDouble_eq] at h
  split at h
  · simp at h
  · simp only [Except.error.injEq] at h
    exact h.symm

theorem readPointInt_error (src : PointBuffer) (fx fy fz : Nat) (xdim ydim zdim : Dimension)
    (i : Nat) (e : Error)
    (h : readPointInt src fx fy fz xdim ydim zdim i = Except.error e) :
    e = Error.src_out_of_bounds := by
  rw [readPointInt_eq] at h
  split at h
  · simp at h
  · simp only [Except.error.injEq] at h
    exact h.symm

/-! ## processBuffer -/

theorem processBuffer_double (f : CropFilter) (dst src : PointBuffer) (fx fy fz : Nat)
    (hx : dst.m_schemaLayout.getDimensionIndex DimensionId.X_f64 = Except.ok fx)
    (hy : dst.m_schemaLayout.getDimensionIndex DimensionId.Y_f64 = Except.ok fy)
    (hz : dst.m_schemaLayout.getDimensionIndex DimensionId.Z_f64 = Except.ok fz) :
    f.processBuffer dst src =
      finish (cropLoop f.m_bounds (readPointDouble src fx fy fz) src src.m_numPoints 0
        (dst, dst.m_numPoints, 0)) := by
  have hd := getDimensionIndex_hasDimension _ _ _ hx
  unfold processBuffer
  simp only [PointBuffer.getSchemaLayout, SchemaLayout.getSchema, hd, hx, hy, hz, getBounds,
    PointBuffer.getNumPoints, PointBuffer.getCapacity]
  cases h : cropLoop f.m_bounds (readPointDouble src fx fy fz) src src.m_numPoints 0
        (dst, dst.m_numPoints, 0) with
  | error e => simp [finish, bind, Except.bind, pure, Except.pure, h]
  | ok r =>
    obtain ⟨d, di, a⟩ := r
    by_cases hc : di ≤ d.m_capacity <;>
      simp [finish, bind, Except.bind, pure, Except.pure, hc, h, throw, throwThe,
        MonadExceptOf.throw]

/-- The integer branch: all three axes are scaled with the dimension found
under `X_i32`. -/
theorem processBuffer_int (f : CropFilter) (dst src : PointBuffer) (fx fy fz : Nat)
    (xdim : Dimension)
    (hx : dst.m_schemaLayout.getDimensionIndex DimensionId.X_i32 = Except.ok fx)
    (hy : dst.m_schemaLayout.getDimensionIndex DimensionId.Y_i32 = Except.ok fy)
    (hz : dst.m_schemaLayout.getDimensionIndex DimensionId.Z_i32 = Except.ok fz)
    (hdim : dst.m_schemaLayout.m_schema.getDimension DimensionId.X_i32 = Except.ok xdim)
    (hd : dst.m_schemaLayout.m_schema.hasDimension DimensionId.X_f64 = false) :
    f.processBuffer dst src =
      finish (cropLoop f.m_bounds (readPointInt src fx fy fz xdim xdim xdim) src src.m_numPoints 0
        (dst, dst.m_numPoints, 0)) := by
  have hi := getDimensionIndex_hasDimension _ _ _ hx
  unfold processBuffer
  simp only [PointBuffer.getSchemaLayout, SchemaLayout.getSchema, hd, hi, hx, hy, hz, hdim,
    getBounds, PointBuffer.getNumPoints, PointBuffer.getCapacity]
  cases h : cropLoop f.m_bounds (readPointInt src fx fy fz xdim xdim xdim) src src.m_numPoints 0
        (dst, dst.m_numPoints, 0) with
  | error e => simp [finish, bind, Except.bind, pure, Except.pure, h]
  | ok r =>
    obtain ⟨d, di, a⟩ := r
    by_cases hc : di ≤ d.m_capacity <;>
      simp [finish, bind, Except.bind, pure, Except.pure, hc, h, throw, throwThe,
        MonadExceptOf.throw]

/-- Every call either fails on the schema before the loop, or is the loop of
one of the two branches followed by the closing assertion. -/
theorem processBuffer_cases (f : CropFilter) (dst src : PointBuffer) :
    (f.processBuffer dst src = Except.error Error.assert_schema ∨
     f.processBuffer dst src = Except.error Error.schema_error) ∨
    ∃ readPoint : Nat → Except Error Vector,
      (∀ i e, readPoint i = Except.error e → e = Error.src_out_of_bounds) ∧
      f.processBuffer dst src =
        finish (cropLoop f.m_bounds readPoint src src.m_numPoints 0 (dst, dst.m_numPoints, 0)) := by
  by_cases hd : dst.m_schemaLayout.m_schema.hasDimension DimensionId.X_f64 = true
  · cases hx : dst.m_schemaLayout.getDimensionIndex DimensionId.X_f64 with
    | error e =>
      left; right
      have := getDimensionIndex_error _ _ _ hx
      subst this
      simp [processBuffer, PointBuffer.getSchemaLayout, SchemaLayout.getSchema, hd, hx, bind,
        Except.bind, pure, Except.pure]
    | ok fx =>
      cases hy : dst.m_schemaLayout.getDimensionIndex DimensionId.Y_f64 with
      | error e =>
        left; right
        have := getDimensionIndex_error _ _ _ hy
        subst this
        simp [processBuffer, PointBuffer.getSchemaLayout, SchemaLayout.getSchema, hd, hx, hy,
          bind, Except.bind, pure, Except.pure]
      | ok fy =>
        cases hz : dst.m_schemaLayout.getDimensionIndex DimensionId.Z_f64 with
        | error e =>
          left; right
          have := getDimensionIndex_error _ _ _ hz
          subst this
          simp [processBuffer, PointBuffer.getSchemaLayout, SchemaLayout.getSchema, hd, hx, hy,
            hz, bind, Except.bind, pure, Except.pure]
        | ok fz =>
          right
          exact ⟨readPointDouble src fx fy fz, readPointDouble_error src fx fy fz,
            processBuffer_double f dst src fx fy fz hx hy hz⟩
  · have hd' : dst.m_schemaLayout.m_schema.hasDimension DimensionId.X_f64 = false := by
      simpa using hd
    by_cases hi : dst.m_schemaLayout.m_schema.hasDimension DimensionId.X_i32 = true
    · cases hx : dst.m_schemaLayout.getDimensionIndex DimensionId.X_i32 with
      | error e =>
        left; right
        have := getDimensionIndex_error _ _ _ hx
        subst this
        simp [processBuffer, PointBuffer.getSchemaLayout, SchemaLayout.getSchema, hd', hi, hx,
          bind, Except.bind, pure, Except.pure]
      | ok fx =>
        cases hy : dst.m_schemaLayout.getDimensionIndex DimensionId.Y_i32 with
        | error e =>
          left; right
          have := getDimensionIndex_error _ _ _ hy
          subst this
          simp [processBuffer, PointBuffer.getSchemaLayout, SchemaLayout.getSchema, hd', hi, hx,
            hy, bind, Except.bind, pure, Except.pure]
        | ok fy =>
          cases hz : dst.m_schemaLayout.getDimensionIndex DimensionId.Z_i32 with
          | error e =>
            left; right
            have := getDimensionIndex_error _ _ _ hz
            subst this
            simp [processBuffer, PointBuffer.getSchemaLayout, SchemaLayout.getSchema, hd', hi,
              hx, hy, hz, bind, Except.bind, pure, Except.pure]
          | ok fz =>
            cases hdim : dst.m_schemaLayout.m_schema.getDimension DimensionId.X_i32 with
            | error e =>
              left; right
              have := getDimension_error _ _ _ hdim
              subst this
              simp [processBuffer, PointBuffer.getSchemaLayout, SchemaLayout.getSchema, hd', hi,
                hx, hy, hz, hdim, bind, Except.bind, pure, Except.pure]
            | ok xdim =>
              right
              exact ⟨readPointInt src fx fy fz xdim xdim xdim,
                readPointInt_error src fx fy fz xdim xdim xdim,
                processBuffer_int f dst src fx fy fz xdim hx hy hz hdim hd'⟩
    · left; left
      have hi' : dst.m_schemaLayout.m_schema.hasDimension DimensionId.X_i32 = false := by
        simpa using hi
      simp [processBuffer, PointBuffer.getSchemaLayout, SchemaLayout.getSchema, hd', hi', bind,
        Except.bind, throw, throwThe, MonadExceptOf.throw]

/-- The loop and the closing assertion on a source whose reads succeed and a
destination with room for the selected points. -/
theorem finish_cropLoop_ok (bounds : Bounds) (readPoint : Nat → Except Error Vector)
    (src dst : PointBuffer)
    (hread : ∀ i, i < src.m_numPoints → ∃ p, readPoint i = Except.ok p)
    (hsrc : src.m_numPoints ≤ src.m_data.length)
    (hlen : dst.m_data.length = dst.m_capacity)
    (hcap : dst.m_numPoints + (selected bounds readPoint 0 src.m_numPoints).length
      ≤ dst.m_capacity) :
    finish (cropLoop bounds readPoint src src.m_numPoints 0 (dst, dst.m_numPoints, 0)) =
      Except.ok
        ({ dst with
            m_numPoints :=
              dst.m_numPoints + (selected bounds readPoint 0 src.m_numPoints).length
            m_data :=
              dst.m_data.take dst.m_numPoints ++
                (selected bounds readPoint 0 src.m_numPoints).map
                  (fun i => src.m_data.getD i []) ++
                dst.m_data.drop
                  (dst.m_numPoints + (selected bounds readPoint 0 src.m_numPoints).length) },
          (selected bounds readPoint 0 src.m_numPoints).length) := by
  rw [cropLoop_ok bounds readPoint src src.m_numPoints 0 dst dst.m_numPoints 0
    (fun i _ h => hread i (by omega)) (by omega) hlen hcap]
  simp only [finish, if_pos hcap, Nat.zero_add]
  congr 2
  split
  · next h => rw [h]; rfl
  · rfl

theorem selected_eq_filter (bounds : Bounds) (readPoint : Nat → Except Error Vector) (n : Nat)
    (p : Nat → Bool) (h : ∀ i, i < n → selects bounds readPoint i = p i) :
    selected bounds readPoint 0 n = (List.range n).filter p := by
  unfold selected
  rw [← List.range_eq_range']
  apply List.filter_congr
  intro i hi
  exact h i (List.mem_range.mp hi)

/-! ## The properties of processBuffer -/

theorem selects_double (bounds : Bounds) (src : PointBuffer) (fx fy fz i : Nat) :
    selects bounds (readPointDouble src fx fy fz) i =
      (match src.xyz_f64 fx fy fz i with
       | some point => bounds.contains point
       | none => false) := by
  unfold selects
  rw [readPointDouble_eq]
  cases src.xyz_f64 fx fy fz i <;> rfl

theorem selects_int (bounds : Bounds) (src : PointBuffer) (fx fy fz : Nat)
    (xdim ydim zdim : Dimension) (i : Nat) :
    selects bounds (readPointInt src fx fy fz xdim ydim zdim) i =
      (match src.scaledPoint fx fy fz xdim ydim zdim i with
       | some point => bounds.contains point
       | none => false) := by
  unfold selects
  rw [readPointInt_eq]
  cases src.scaledPoint fx fy fz xdim ydim zdim i <;> rfl

theorem selected_double (bounds : Bounds) (src : PointBuffer) (fx fy fz : Nat) :
    selected bounds (readPointDouble src fx fy fz) 0 src.m_numPoints =
      containedIndices bounds src fx fy fz :=
  selected_eq_filter _ _ _ _ (fun i _ => selects_double bounds src fx fy fz i)

theorem selected_int (bounds : Bounds) (src : PointBuffer) (fx fy fz : Nat)
    (xdim ydim zdim : Dimension) :
    selected bounds (readPointInt src fx fy fz xdim ydim zdim) 0 src.m_numPoints =
      containedScaledIndices bounds src fx fy fz xdim ydim zdim :=
  selected_eq_filter _ _ _ _ (fun i _ => selects_int bounds src fx fy fz xdim ydim zdim i)

theorem numPoints_le_of_isSome {α : Type} (data : List PointRecord) (n : Nat)
    (g : PointRecord → Option α)
    (h : ∀ i, i < n → ((data[i]?).bind g).isSome = true) : n ≤ data.length := by
  by_contra hlt
  have hl : data.length < n := by omega
  have := h data.length hl
  simp at this

theorem appended_records {α : Type} (l m : List α) (n0 k : Nat) (hn : n0 ≤ l.length)
    (hk : m.length = k) :
    ((l.take n0 ++ m ++ l.drop (n0 + k)).drop n0).take k = m := by
  rw [List.append_assoc, List.drop_left' (by simp [hn]), List.take_left' hk]

/-- The floating-point branch, evaluated. On a layout with the `double`
dimensions X, Y, Z, a source that stores `double` coordinates for each of its
points and a destination with room for the contained ones, the call returns
the destination with the contained source records written from index
`numPoints` on, every other slot as it was, and the number of them. -/
theorem crop_double_result (f : CropFilter) (dst src : PointBuffer) (fx fy fz : Nat)
    (hx : dst.m_schemaLayout.getDimensionIndex DimensionId.X_f64 = Except.ok fx)
    (hy : dst.m_schemaLayout.getDimensionIndex DimensionId.Y_f64 = Except.ok fy)
    (hz : dst.m_schemaLayout.getDimensionIndex DimensionId.Z_f64 = Except.ok fz)
    (hsrc : ∀ i, i < src.m_numPoints → (src.xyz_f64 fx fy fz i).isSome = true)
    (hlen : dst.m_data.length = dst.m_capacity)
    (hcap : dst.m_numPoints + (containedIndices f.m_bounds src fx fy fz).length
      ≤ dst.m_capacity) :
    f.processBuffer dst src =
      Except.ok
        ({ dst with
            m_numPoints := dst.m_numPoints + (containedIndices f.m_bounds src fx fy fz).length
            m_data :=
              dst.m_data.take dst.m_numPoints ++
                (containedIndices f.m_bounds src fx fy fz).map (fun i => src.m_data.getD i []) ++
                dst.m_data.drop
                  (dst.m_numPoints + (containedIndices f.m_bounds src fx fy fz).length) },
          (containedIndices f.m_bounds src fx fy fz).length) := by
  have hread : ∀ i, i < src.m_numPoints → ∃ p, readPointDouble src fx fy fz i = Except.ok p := by
    intro i hi
    have := hsrc i hi
    rw [readPointDouble_eq]
    cases hv : src.xyz_f64 fx fy fz i with
    | none => simp [hv] at this
    | some p => exact ⟨p, rfl⟩
  have hsl : src.m_numPoints ≤ src.m_data.length :=
    numPoints_le_of_isSome src.m_data src.m_numPoints (coords_f64 fx fy fz) hsrc
  rw [← selected_double] at hcap ⊢
  rw [processBuffer_double f dst src fx fy fz hx hy hz,
    finish_cropLoop_ok f.m_bounds _ src dst hread hsl hlen hcap]

/-- The integer branch, evaluated. On a layout with the `Int32` dimensions X,
Y, Z and no `double` X, a source that stores raw integer coordinates for each
of its points and a destination with room for the selected ones, the call
returns the destination with the selected source records written from index
`numPoints` on, and the number of them; selected are the points that the
bounds contain once all three axes are scaled with the dimension found under
`X_i32`. -/
theorem crop_int_result (f : CropFilter) (dst src : PointBuffer) (fx fy fz : Nat)
    (xdim : Dimension)
    (hx : dst.m_schemaLayout.getDimensionIndex DimensionId.X_i32 = Except.ok fx)
    (hy : dst.m_schemaLayout.getDimensionIndex DimensionId.Y_i32 = Except.ok fy)
    (hz : dst.m_schemaLayout.getDimensionIndex DimensionId.Z_i32 = Except.ok fz)
    (hnd : dst.m_schemaLayout.m_schema.hasDimension DimensionId.X_f64 = false)
    (hdx : dst.m_schemaLayout.m_schema.getDimension DimensionId.X_i32 = Except.ok xdim)
    (hsrc : ∀ i, i < src.m_numPoints → (src.xyz_i32 fx fy fz i).isSome = true)
    (hlen : dst.m_data.length = dst.m_capacity)
    (hcap : dst.m_numPoints +
      (containedScaledIndices f.m_bounds src fx fy fz xdim xdim xdim).length ≤ dst.m_capacity) :
    f.processBuffer dst src =
      Except.ok
        ({ dst with
            m_numPoints := dst.m_numPoints +
              (containedScaledIndices f.m_bounds src fx fy fz xdim xdim xdim).length
            m_data :=
              dst.m_data.take dst.m_numPoints ++
                (containedScaledIndices f.m_bounds src fx fy fz xdim xdim xdim).map
                  (fun i => src.m_data.getD i []) ++
                dst.m_data.drop (dst.m_numPoints +
                  (containedScaledIndices f.m_bounds src fx fy fz xdim xdim xdim).length) },
          (containedScaledIndices f.m_bounds src fx fy fz xdim xdim xdim).length) := by
  have hread : ∀ i, i < src.m_numPoints →
      ∃ p, readPointInt src fx fy fz xdim xdim xdim i = Except.ok p := by
    intro i hi
    have := hsrc i hi
    rw [readPointInt_eq]
    unfold PointBuffer.scaledPoint
    cases hv : src.xyz_i32 fx fy fz i with
    | none => simp [hv] at this
    | some p => exact ⟨_, rfl⟩
  have hsl : src.m_numPoints ≤ src.m_data.length :=
    numPoints_le_of_isSome src.m_data src.m_numPoints (coords_i32 fx fy fz) hsrc
  rw [← selected_int] at hcap ⊢
  rw [processBuffer_int f dst src fx fy fz xdim hx hy hz hdx hnd,
    finish_cropLoop_ok f.m_bounds _ src dst hread hsl hlen hcap]

/-- Every call that completes raises `numPoints` by the count it returns and
leaves the capacity and the layout of the destination as they were. -/
theorem processBuffer_numPoints (f : CropFilter) (dst src dst' : PointBuffer) (n : Nat)
    (h : f.processBuffer dst src = Except.ok (dst', n)) :
    dst'.m_numPoints = dst.m_numPoints + n ∧ dst'.m_capacity = dst.m_capacity ∧
    dst'.m_schemaLayout = dst.m_schemaLayout := by
  rcases processBuffer_cases f dst src with h1 | ⟨readPoint, _, heq⟩
  · rcases h1 with h1 | h1 <;> simp [h1] at h
  · rw [heq] at h
    cases hloop : cropLoop f.m_bounds readPoint src src.m_numPoints 0 (dst, dst.m_numPoints, 0) with
    | error e => simp [hloop, finish] at h
    | ok r =>
      obtain ⟨h1, h2, h3, h4, h5, _⟩ := cropLoop_result f.m_bounds readPoint src _ _ _ _ _ r hloop
      obtain ⟨d, di, a⟩ := r
      simp only at h1 h2 h3 h4 h5
      simp only [hloop, finish] at h
      split at h
      · simp only [Except.ok.injEq, Prod.mk.injEq] at h
        obtain ⟨hd, hn⟩ := h
        subst hd hn
        refine ⟨?_, h3, h4⟩
        rw [h5]
        split <;> omega
      · simp at h

/-- C5. On a schema whose layout has the `double` dimensions X, Y, Z, with a
source that stores `double` coordinates for each of its points and a
destination (holding `n0` points) with room for the contained ones, the call
completes; the count is the number of source points whose `(x, y, z)` the
bounds contain; `numPoints` becomes `n0` plus that count; the records at
destination indices `n0, n0+1, ...` are the source records at exactly those
indices, whole and in increasing source-index order; and no other slot of the
destination is written. -/
theorem crop_double_appends_contained (f : CropFilter) (dst src : PointBuffer) (fx fy fz : Nat)
    (hx : dst.m_schemaLayout.getDimensionIndex DimensionId.X_f64 = Except.ok fx)
    (hy : dst.m_schemaLayout.getDimensionIndex DimensionId.Y_f64 = Except.ok fy)
    (hz : dst.m_schemaLayout.getDimensionIndex DimensionId.Z_f64 = Except.ok fz)
    (hsrc : ∀ i, i < src.m_numPoints → (src.xyz_f64 fx fy fz i).isSome = true)
    (hlen : dst.m_data.length = dst.m_capacity)
    (hcap : dst.m_numPoints + (containedIndices f.m_bounds src fx fy fz).length
      ≤ dst.m_capacity) :
    ∃ dst' : PointBuffer,
      f.processBuffer dst src =
        Except.ok (dst', (containedIndices f.m_bounds src fx fy fz).length) ∧
      dst'.m_numPoints = dst.m_numPoints + (containedIndices f.m_bounds src fx fy fz).length ∧
      (dst'.m_data.drop dst.m_numPoints).take (containedIndices f.m_bounds src fx fy fz).length =
        (containedIndices f.m_bounds src fx fy fz).map (fun i => src.m_data.getD i []) ∧
      dst'.m_data =
        dst.m_data.take dst.m_numPoints ++
          (containedIndices f.m_bounds src fx fy fz).map (fun i => src.m_data.getD i []) ++
          dst.m_data.drop (dst.m_numPoints + (containedIndices f.m_bounds src fx fy fz).length) :=
  ⟨_, crop_double_result f dst src fx fy fz hx hy hz hsrc hlen hcap, rfl,
    appended_records _ _ _ _ (by omega) (by simp), rfl⟩

theorem crop_double_appends_contained_witness :
    doubleLayout.getDimensionIndex DimensionId.X_f64 = Except.ok 0 ∧
    doubleLayout.getDimensionIndex DimensionId.Y_f64 = Except.ok 1 ∧
    doubleLayout.getDimensionIndex DimensionId.Z_f64 = Except.ok 2 ∧
    (∀ i, i < scenarioDoubleSource.m_numPoints →
      (scenarioDoubleSource.xyz_f64 0 1 2 i).isSome = true) ∧
    (emptyBuffer doubleLayout 5).m_data.length = (emptyBuffer doubleLayout 5).m_capacity ∧
    (emptyBuffer doubleLayout 5).m_numPoints +
      (containedIndices (cube 0 6) scenarioDoubleSource 0 1 2).length
        ≤ (emptyBuffer doubleLayout 5).m_capacity ∧
    containedIndices (cube 0 6) scenarioDoubleSource 0 1 2 = [0, 1, 4] ∧
    (containedIndices (cube 0 6) scenarioDoubleSource 0 1 2).map
        (fun i => scenarioDoubleSource.m_data.getD i []) =
      [doublePoint 0 0 0, doublePoint 5 5 5, doublePoint 3 3 3] ∧
    ∃ dst' : PointBuffer,
      (CropFilter.mk (cube 0 6)).processBuffer (emptyBuffer doubleLayout 5) scenarioDoubleSource =
        Except.ok (dst', (containedIndices (cube 0 6) scenarioDoubleSource 0 1 2).length) ∧
      dst'.m_numPoints = (emptyBuffer doubleLayout 5).m_numPoints +
        (containedIndices (cube 0 6) scenarioDoubleSource 0 1 2).length ∧
      (dst'.m_data.drop (emptyBuffer doubleLayout 5).m_numPoints).take
          (containedIndices (cube 0 6) scenarioDoubleSource 0 1 2).length =
        (containedIndices (cube 0 6) scenarioDoubleSource 0 1 2).map
          (fun i => scenarioDoubleSource.m_data.getD i []) ∧
      dst'.m_data =
        (emptyBuffer doubleLayout 5).m_data.take (emptyBuffer doubleLayout 5).m_numPoints ++
          (containedIndices (cube 0 6) scenarioDoubleSource 0 1 2).map
            (fun i => scenarioDoubleSource.m_data.getD i []) ++
          (emptyBuffer doubleLayout 5).m_data.drop ((emptyBuffer doubleLayout 5).m_numPoints +
            (containedIndices (cube 0 6) scenarioDoubleSource 0 1 2).length) :=
  have hsel : containedIndices (cube 0 6) scenarioDoubleSource 0 1 2 = [0, 1, 4] := by decide
  ⟨rfl, rfl, rfl, by decide, rfl, by rw [hsel]; decide, hsel, by rw [hsel]; rfl,
    crop_double_appends_contained (CropFilter.mk (cube 0 6)) (emptyBuffer doubleLayout 5)
      scenarioDoubleSource 0 1 2 rfl rfl rfl (by decide) rfl (by rw [hsel]; decide)⟩

theorem skewed_reads (i : Nat) (hi : i < skewedInt32Source.m_numPoints) :
    ∃ p, readPointInt skewedInt32Source 0 1 2 (int32Dimension DimensionId.X_i32 "X" 1 0)
      (int32Dimension DimensionId.X_i32 "X" 1 0) (int32Dimension DimensionId.X_i32 "X" 1 0) i
      = Except.ok p := by
  have hi0 : i = 0 := by
    have : skewedInt32Source.m_numPoints = 1 := rfl
    omega
  subst hi0
  rw [readPointInt_eq]
  exact ⟨_, rfl⟩

theorem skewed_selected :
    selected (cube 0 (3 / 2))
      (readPointInt skewedInt32Source 0 1 2 (int32Dimension DimensionId.X_i32 "X" 1 0)
        (int32Dimension DimensionId.X_i32 "X" 1 0) (int32Dimension DimensionId.X_i32 "X" 1 0))
      0 skewedInt32Source.m_numPoints = [0] := by
  rw [selected_int]
  norm_num [containedScaledIndices, PointBuffer.scaledPoint, PointBuffer.xyz_i32, coords_i32,
    skewedInt32Source, fullBuffer, int32Point, Dimension.applyScaling, int32Dimension, cube,
    Bounds.contains, Range.contains, List.range_succ]

/-- The call on the skewed source, evaluated. -/
theorem skewed_processBuffer :
    (CropFilter.mk (cube 0 (3 / 2))).processBuffer (emptyBuffer (int32Layout 1 2 1) 1)
        skewedInt32Source =
      Except.ok
        ({ m_schemaLayout := int32Layout 1 2 1, m_capacity := 1, m_numPoints := 1,
           m_data := [int32Point 1 1 1] }, 1) := by
  rw [processBuffer_int (CropFilter.mk (cube 0 (3 / 2))) (emptyBuffer (int32Layout 1 2 1) 1)
      skewedInt32Source 0 1 2 (int32Dimension DimensionId.X_i32 "X" 1 0) rfl rfl rfl rfl
      (by decide),
    finish_cropLoop_ok _ _ _ _ skewed_reads (by decide) rfl
      (by rw [skewed_selected]; decide),
    skewed_selected]
  rfl

/-- C6 (code defect). On the one-point source with raw
coordinates `(1,1,1)` and scales 1, 2, 1 for X, Y, Z the real coordinates are
`(1,2,1)`, which the cube `[0, 3/2]` on each axis does not contain: no source
point has its coordinate in the bounds. The call completes and returns the
count 1, with `numPoints` raised from 0 to 1. -/
theorem crop_count_differs_from_contained :
    skewedInt32Source.scaledPoint 0 1 2 (int32Dimension DimensionId.X_i32 "X" 1 0)
        (int32Dimension DimensionId.Y_i32 "Y" 2 0) (int32Dimension DimensionId.Z_i32 "Z" 1 0) 0
      = some [1, 2, 1] ∧
    (containedScaledIndices (cube 0 (3 / 2)) skewedInt32Source 0 1 2
        (int32Dimension DimensionId.X_i32 "X" 1 0) (int32Dimension DimensionId.Y_i32 "Y" 2 0)
        (int32Dimension DimensionId.Z_i32 "Z" 1 0)).length = 0 ∧
    ∃ dst' : PointBuffer,
      (CropFilter.mk (cube 0 (3 / 2))).processBuffer (emptyBuffer (int32Layout 1 2 1) 1)
          skewedInt32Source = Except.ok (dst', 1) ∧
      dst'.m_numPoints = (emptyBuffer (int32Layout 1 2 1) 1).m_numPoints + 1 := by
  refine ⟨?_, ?_, ?_⟩
  · simp [PointBuffer.scaledPoint, PointBuffer.xyz_i32, coords_i32, skewedInt32Source,
      fullBuffer, int32Point, Dimension.applyScaling, int32Dimension]
  · norm_num [containedScaledIndices, PointBuffer.scaledPoint, PointBuffer.xyz_i32, coords_i32,
      skewedInt32Source, fullBuffer, int32Point, Dimension.applyScaling, int32Dimension, cube,
      Bounds.contains, Range.contains, List.range_succ]
  · exact ⟨_, skewed_processBuffer, rfl⟩

/-- C8 (code defect). With scales 1, 2, 1 for X, Y, Z the
dimensions of the three axes are distinct, and the point of the raw record
`(1,1,1)` recovered with each axis's own dimension is `(1,2,1)`, outside the
cube `[0, 3/2]`. The integer path tests `(1,1,1)` instead, the point recovered
with the X dimension on all three axes, and copies the record to the
destination. -/
theorem crop_int_scales_with_x_dimension :
    (int32Layout 1 2 1).m_schema.getDimension DimensionId.X_i32
      = Except.ok (int32Dimension DimensionId.X_i32 "X" 1 0) ∧
    (int32Layout 1 2 1).m_schema.getDimension DimensionId.Y_i32
      = Except.ok (int32Dimension DimensionId.Y_i32 "Y" 2 0) ∧
    (int32Layout 1 2 1).m_schema.getDimension DimensionId.Z_i32
      = Except.ok (int32Dimension DimensionId.Z_i32 "Z" 1 0) ∧
    readPointInt skewedInt32Source 0 1 2 (int32Dimension DimensionId.X_i32 "X" 1 0)
        (int32Dimension DimensionId.Y_i32 "Y" 2 0) (int32Dimension DimensionId.Z_i32 "Z" 1 0) 0
      = Except.ok [1, 2, 1] ∧
    (cube 0 (3 / 2)).contains [1, 2, 1] = false ∧
    (cube 0 (3 / 2)).contains [1, 1, 1] = true ∧
    (∀ src : PointBuffer,
      (CropFilter.mk (cube 0 (3 / 2))).processBuffer (emptyBuffer (int32Layout 1 2 1) 1) src =
        finish (cropLoop (cube 0 (3 / 2))
          (readPointInt src 0 1 2 (int32Dimension DimensionId.X_i32 "X" 1 0)
            (int32Dimension DimensionId.X_i32 "X" 1 0) (int32Dimension DimensionId.X_i32 "X" 1 0))
          src src.m_numPoints 0 (emptyBuffer (int32Layout 1 2 1) 1, 0, 0))) ∧
    (CropFilter.mk (cube 0 (3 / 2))).processBuffer (emptyBuffer (int32Layout 1 2 1) 1)
        skewedInt32Source =
      Except.ok
        ({ m_schemaLayout := int32Layout 1 2 1, m_capacity := 1, m_numPoints := 1,
           m_data := [int32Point 1 1 1] }, 1) := by
  refine ⟨rfl, rfl, rfl, ?_, by norm_num [cube, Bounds.contains, Range.contains],
    by norm_num [cube, Bounds.contains, Range.contains], ?_, skewed_processBuffer⟩
  · rw [readPointInt_eq]
    simp [PointBuffer.scaledPoint, PointBuffer.xyz_i32, coords_i32, skewedInt32Source,
      fullBuffer, int32Point, Dimension.applyScaling, int32Dimension]
  · intro src
    exact processBuffer_int (CropFilter.mk (cube 0 (3 / 2))) (emptyBuffer (int32Layout 1 2 1) 1)
      src 0 1 2 (int32Dimension DimensionId.X_i32 "X" 1 0) rfl rfl rfl rfl (by decide)

/-- C9. When the source has no more points than the destination has free
slots, `src.numPoints <= dst.capacity - dst.numPoints`, no call fails on the
capacity: not with buffer-too-small from `setNumPoints`, not with a copy to a
destination index at or beyond the capacity, and not on the closing assertion
`dstIndex <= dst.capacity`; and a call that returns leaves
`dst.numPoints + count` and the new `numPoints` within the capacity, which is
unchanged. -/
theorem crop_capacity_safe (f : CropFilter) (dst src : PointBuffer)
    (h : (src.m_numPoints : Int) ≤ (dst.m_capacity : Int) - (dst.m_numPoints : Int)) :
    (∀ e, f.processBuffer dst src = Except.error e →
      e ≠ Error.buffer_too_small ∧ e ≠ Error.dst_out_of_bounds ∧ e ≠ Error.assert_capacity) ∧
    (∀ dst' n, f.processBuffer dst src = Except.ok (dst', n) →
      dst.m_numPoints + n ≤ dst.m_capacity ∧ dst'.m_numPoints ≤ dst'.m_capacity ∧
      dst'.m_capacity = dst.m_capacity) := by
  have hcap : dst.m_numPoints + src.m_numPoints ≤ dst.m_capacity := by omega
  rcases processBuffer_cases f dst src with h1 | ⟨readPoint, hread, heq⟩
  · constructor
    · intro e he
      rcases h1 with h1 | h1 <;>
        · rw [h1] at he
          simp only [Except.error.injEq] at he
          subst he
          simp
    · intro dst' n hok
      rcases h1 with h1 | h1 <;> simp [h1] at hok
  · rw [heq]
    cases hloop : cropLoop f.m_bounds readPoint src src.m_numPoints 0 (dst, dst.m_numPoints, 0) with
    | error e' =>
      have he' := cropLoop_error f.m_bounds readPoint src hread _ _ _ _ _ e' hcap hloop
      subst he'
      constructor
      · intro e he
        simp only [finish, Except.error.injEq] at he
        subst he
        simp
      · intro dst' n hok
        simp [finish] at hok
    | ok r =>
      obtain ⟨h1, h2, h3, h4, h5, h6⟩ := cropLoop_result f.m_bounds readPoint src _ _ _ _ _ r hloop
      have hk := selected_length_le f.m_bounds readPoint 0 src.m_numPoints
      obtain ⟨d, di, a⟩ := r
      simp only at h1 h2 h3 h4 h5 h6
      have hdi : di ≤ d.m_capacity := by omega
      simp only [finish, if_pos hdi]
      constructor
      · intro e he
        simp at he
      · intro dst' n hok
        simp only [Except.ok.injEq, Prod.mk.injEq] at hok
        obtain ⟨hd, hn⟩ := hok
        subst hd hn
        refine ⟨by omega, ?_, h3⟩
        rw [h5]
        split <;> omega

theorem crop_capacity_safe_witness :
    ((scenarioDoubleSource.m_numPoints : Int) ≤
      ((emptyBuffer doubleLayout 5).m_capacity : Int) -
        ((emptyBuffer doubleLayout 5).m_numPoints : Int)) ∧
    (∀ e, (CropFilter.mk (cube 0 6)).processBuffer (emptyBuffer doubleLayout 5)
        scenarioDoubleSource = Except.error e →
      e ≠ Error.buffer_too_small ∧ e ≠ Error.dst_out_of_bounds ∧ e ≠ Error.assert_capacity) ∧
    (∀ dst' n, (CropFilter.mk (cube 0 6)).processBuffer (emptyBuffer doubleLayout 5)
        scenarioDoubleSource = Except.ok (dst', n) →
      (emptyBuffer doubleLayout 5).m_numPoints + n ≤ (emptyBuffer doubleLayout 5).m_capacity ∧
      dst'.m_numPoints ≤ dst'.m_capacity ∧
      dst'.m_capacity = (emptyBuffer doubleLayout 5).m_capacity) :=
  ⟨by decide,
    crop_capacity_safe (CropFilter.mk (cube 0 6)) (emptyBuffer doubleLayout 5)
      scenarioDoubleSource (by decide)⟩

/-- C7. The two coordinate paths agree. Take an integer-coordinate call whose
X, Y, Z dimensions all carry scale `s` and offset `o`, and a
floating-point call whose source stores, for each index, the point
`(xi*s+o, yi*s+o, zi*s+o)` of the raw triple `(xi, yi, zi)` the integer source
stores there. Both calls complete with the same count, and they append the
records of the same source indices: the indices whose scaled point the bounds
contain, in increasing order. -/
theorem crop_paths_agree (f : CropFilter) (dstI srcI dstD srcD : PointBuffer)
    (fx fy fz gx gy gz : Nat) (xdim ydim zdim : Dimension) (s o : ℚ)
    (hx : dstI.m_schemaLayout.getDimensionIndex DimensionId.X_i32 = Except.ok fx)
    (hy : dstI.m_schemaLayout.getDimensionIndex DimensionId.Y_i32 = Except.ok fy)
    (hz : dstI.m_schemaLayout.getDimensionIndex DimensionId.Z_i32 = Except.ok fz)
    (hnd : dstI.m_schemaLayout.m_schema.hasDimension DimensionId.X_f64 = false)
    (hdx : dstI.m_schemaLayout.m_schema.getDimension DimensionId.X_i32 = Except.ok xdim)
    (hdy : dstI.m_schemaLayout.m_schema.getDimension DimensionId.Y_i32 = Except.ok ydim)
    (hdz : dstI.m_schemaLayout.m_schema.getDimension DimensionId.Z_i32 = Except.ok zdim)
    (hsx : xdim.m_numericScale = s ∧ xdim.m_numericOffset = o)
    (hsy : ydim.m_numericScale = s ∧ ydim.m_numericOffset = o)
    (hsz : zdim.m_numericScale = s ∧ zdim.m_numericOffset = o)
    (hgx : dstD.m_schemaLayout.getDimensionIndex DimensionId.X_f64 = Except.ok gx)
    (hgy : dstD.m_schemaLayout.getDimensionIndex DimensionId.Y_f64 = Except.ok gy)
    (hgz : dstD.m_schemaLayout.getDimensionIndex DimensionId.Z_f64 = Except.ok gz)
    (hn : srcI.m_numPoints = srcD.m_numPoints)
    (hpts : ∀ i, i < srcI.m_numPoints → ∃ xi yi zi : Int,
      srcI.xyz_i32 fx fy fz i = some (xi, yi, zi) ∧
      srcD.xyz_f64 gx gy gz i = some [(xi : ℚ) * s + o, (yi : ℚ) * s + o, (zi : ℚ) * s + o])
    (hlenI : dstI.m_data.length = dstI.m_capacity)
    (hlenD : dstD.m_data.length = dstD.m_capacity)
    (hcapI : dstI.m_numPoints + srcI.m_numPoints ≤ dstI.m_capacity)
    (hcapD : dstD.m_numPoints + srcD.m_numPoints ≤ dstD.m_capacity) :
    ∃ (sel : List Nat) (dI dD : PointBuffer),
      sel = containedScaledIndices f.m_bounds srcI fx fy fz xdim ydim zdim ∧
      sel = containedIndices f.m_bounds srcD gx gy gz ∧
      f.processBuffer dstI srcI = Except.ok (dI, sel.length) ∧
      f.processBuffer dstD srcD = Except.ok (dD, sel.length) ∧
      (dI.m_data.drop dstI.m_numPoints).take sel.length =
        sel.map (fun i => srcI.m_data.getD i []) ∧
      (dD.m_data.drop dstD.m_numPoints).take sel.length =
        sel.map (fun i => srcD.m_data.getD i []) := by
  -- the point each path tests at a source index
  have hscaled : ∀ i, i < srcI.m_numPoints →
      srcI.scaledPoint fx fy fz xdim ydim zdim i = srcD.xyz_f64 gx gy gz i ∧
      srcI.scaledPoint fx fy fz xdim xdim xdim i = srcD.xyz_f64 gx gy gz i ∧
      (srcD.xyz_f64 gx gy gz i).isSome = true := by
    intro i hi
    obtain ⟨xi, yi, zi, h1, h2⟩ := hpts i hi
    simp [PointBuffer.scaledPoint, h1, h2, Dimension.applyScaling, hsx.1, hsx.2, hsy.1, hsy.2,
      hsz.1, hsz.2]
  have hselI : containedScaledIndices f.m_bounds srcI fx fy fz xdim xdim xdim =
      containedIndices f.m_bounds srcD gx gy gz := by
    unfold containedScaledIndices containedIndices
    rw [← hn]
    apply List.filter_congr
    intro i hi
    rw [(hscaled i (List.mem_range.mp hi)).2.1]
  have hselT : containedScaledIndices f.m_bounds srcI fx fy fz xdim ydim zdim =
      containedIndices f.m_bounds srcD gx gy gz := by
    unfold containedScaledIndices containedIndices
    rw [← hn]
    apply List.filter_congr
    intro i hi
    rw [(hscaled i (List.mem_range.mp hi)).1]
  have hk : (containedIndices f.m_bounds srcD gx gy gz).length ≤ srcD.m_numPoints := by
    rw [← selected_double]
    exact selected_length_le _ _ _ _
  have hsomeI : ∀ i, i < srcI.m_numPoints → (srcI.xyz_i32 fx fy fz i).isSome = true := by
    intro i hi
    obtain ⟨xi, yi, zi, h1, _⟩ := hpts i hi
    rw [h1]
    rfl
  have hD := crop_double_result f dstD srcD gx gy gz hgx hgy hgz
    (fun i hi => (hscaled i (by omega)).2.2) hlenD (by omega)
  have hI := crop_int_result f dstI srcI fx fy fz xdim hx hy hz hnd hdx
    hsomeI hlenI (by rw [hselI]; omega)
  rw [hselI] at hI
  exact ⟨containedIndices f.m_bounds srcD gx gy gz, _, _, hselT.symm, rfl, hI, hD,
    appended_records _ _ _ _ (by omega) (by simp),
    appended_records _ _ _ _ (by omega) (by simp)⟩

theorem scenario_points (i : Nat) (hi : i < scenarioInt32Source.m_numPoints) :
    ∃ xi yi zi : Int,
      scenarioInt32Source.xyz_i32 0 1 2 i = some (xi, yi, zi) ∧
      scenarioDoubleSource.xyz_f64 0 1 2 i =
        some [(xi : ℚ) * (1 / 100) + 0, (yi : ℚ) * (1 / 100) + 0, (zi : ℚ) * (1 / 100) + 0] := by
  have h5 : scenarioInt32Source.m_numPoints = 5 := rfl
  rw [h5] at hi
  interval_cases i
  · exact ⟨0, 0, 0, rfl, by
      norm_num [PointBuffer.xyz_f64, coords_f64, scenarioDoubleSource, fullBuffer, doublePoint]⟩
  · exact ⟨500, 500, 500, rfl, by
      norm_num [PointBuffer.xyz_f64, coords_f64, scenarioDoubleSource, fullBuffer, doublePoint]⟩
  · exact ⟨-100, -100, -100, rfl, by
      norm_num [PointBuffer.xyz_f64, coords_f64, scenarioDoubleSource, fullBuffer, doublePoint]⟩
  · exact ⟨1000, 0, 0, rfl, by
      norm_num [PointBuffer.xyz_f64, coords_f64, scenarioDoubleSource, fullBuffer, doublePoint]⟩
  · exact ⟨300, 300, 300, rfl, by
      norm_num [PointBuffer.xyz_f64, coords_f64, scenarioDoubleSource, fullBuffer, doublePoint]⟩

theorem crop_paths_agree_witness :
    scenarioInt32Source.m_numPoints = scenarioDoubleSource.m_numPoints ∧
    (∀ i, i < scenarioInt32Source.m_numPoints → ∃ xi yi zi : Int,
      scenarioInt32Source.xyz_i32 0 1 2 i = some (xi, yi, zi) ∧
      scenarioDoubleSource.xyz_f64 0 1 2 i =
        some [(xi : ℚ) * (1 / 100) + 0, (yi : ℚ) * (1 / 100) + 0, (zi : ℚ) * (1 / 100) + 0]) ∧
    containedIndices (cube 0 6) scenarioDoubleSource 0 1 2 = [0, 1, 4] ∧
    ∃ (sel : List Nat) (dI dD : PointBuffer),
      sel = containedScaledIndices (cube 0 6) scenarioInt32Source 0 1 2
        (int32Dimension DimensionId.X_i32 "X" (1 / 100) 0)
        (int32Dimension DimensionId.Y_i32 "Y" (1 / 100) 0)
        (int32Dimension DimensionId.Z_i32 "Z" (1 / 100) 0) ∧
      sel = containedIndices (cube 0 6) scenarioDoubleSource 0 1 2 ∧
      (CropFilter.mk (cube 0 6)).processBuffer
          (emptyBuffer (int32Layout (1 / 100) (1 / 100) (1 / 100)) 5) scenarioInt32Source =
        Except.ok (dI, sel.length) ∧
      (CropFilter.mk (cube 0 6)).processBuffer (emptyBuffer doubleLayout 5) scenarioDoubleSource =
        Except.ok (dD, sel.length) ∧
      (dI.m_data.drop (emptyBuffer (int32Layout (1 / 100) (1 / 100) (1 / 100)) 5).m_numPoints).take
          sel.length = sel.map (fun i => scenarioInt32Source.m_data.getD i []) ∧
      (dD.m_data.drop (emptyBuffer doubleLayout 5).m_numPoints).take sel.length =
        sel.map (fun i => scenarioDoubleSource.m_data.getD i []) :=
  ⟨rfl, scenario_points, by decide,
    crop_paths_agree (CropFilter.mk (cube 0 6))
      (emptyBuffer (int32Layout (1 / 100) (1 / 100) (1 / 100)) 5) scenarioInt32Source
      (emptyBuffer doubleLayout 5) scenarioDoubleSource 0 1 2 0 1 2
      (int32Dimension DimensionId.X_i32 "X" (1 / 100) 0)
      (int32Dimension DimensionId.Y_i32 "Y" (1 / 100) 0)
      (int32Dimension DimensionId.Z_i32 "Z" (1 / 100) 0) (1 / 100) 0
      rfl rfl rfl (by decide) rfl rfl rfl ⟨rfl, rfl⟩ ⟨rfl, rfl⟩ ⟨rfl, rfl⟩ rfl rfl rfl rfl
      scenario_points rfl rfl (by decide) (by decide)⟩

end CropFilter

/-! ## The setters of the scale and the offset -/

theorem compare_approx_false_of_lt (v : ℚ) (h : DBL_MIN < |v|) :
    Utils.compare_approx v 0 DBL_MIN = false := by
  simp only [Utils.compare_approx, sub_zero, decide_eq_false_iff_not, not_le]
  exact h

theorem compare_approx_half : Utils.compare_approx (DBL_MIN / 2) 0 DBL_MIN = true := by
  have hpos := DBL_MIN_pos
  simp only [Utils.compare_approx, decide_eq_true_eq, sub_zero]
  rw [abs_of_pos (by linarith)]
  linarith

/-- C11, as stated, fails. The value `DBL_MIN / 2` is not zero, and on a
dimension whose precision flag is off, `setNumericScale(DBL_MIN / 2)` stores it
and leaves `isFinitePrecision()` false; so does `setNumericOffset`. -/
theorem tiny_value_leaves_precision_off :
    DBL_MIN / 2 ≠ 0 ∧
    (dimensionX_i32.setNumericScale (DBL_MIN / 2)).getNumericScale = DBL_MIN / 2 ∧
    (dimensionX_i32.setNumericScale (DBL_MIN / 2)).isFinitePrecision = false ∧
    (dimensionX_i32.setNumericOffset (DBL_MIN / 2)).getNumericOffset = DBL_MIN / 2 ∧
    (dimensionX_i32.setNumericOffset (DBL_MIN / 2)).isFinitePrecision = false := by
  have hpos := DBL_MIN_pos
  refine ⟨by intro h; linarith, ?_, ?_, ?_, ?_⟩ <;>
    simp [Dimension.setNumericScale, Dimension.setNumericOffset, compare_approx_half,
      Dimension.getNumericScale, Dimension.getNumericOffset, Dimension.isFinitePrecision,
      dimensionX_i32, Dimension.construct]

/-- C11, amended. For every dimension and every value `v` that differs from
zero by more than `DBL_MIN`, after `setNumericScale(v)` the dimension reports
`getNumericScale() == v` and `isFinitePrecision() == true`, and after
`setNumericOffset(v)` it reports `getNumericOffset() == v` and
`isFinitePrecision() == true`, whatever the flag was before. -/
theorem setter_turns_precision_on (d : Dimension) (v : ℚ) (h : DBL_MIN < |v|) :
    (d.setNumericScale v).getNumericScale = v ∧
    (d.setNumericScale v).isFinitePrecision = true ∧
    (d.setNumericOffset v).getNumericOffset = v ∧
    (d.setNumericOffset v).isFinitePrecision = true := by
  have hv := compare_approx_false_of_lt v h
  simp [Dimension.setNumericScale, Dimension.setNumericOffset, hv, Dimension.getNumericScale,
    Dimension.getNumericOffset, Dimension.isFinitePrecision]

theorem setter_turns_precision_on_witness :
    DBL_MIN < |(1 / 100 : ℚ)| ∧
    dimensionX_i32.isFinitePrecision = false ∧
    (dimensionX_i32.setNumericScale (1 / 100)).getNumericScale = 1 / 100 ∧
    (dimensionX_i32.setNumericScale (1 / 100)).isFinitePrecision = true ∧
    (dimensionX_i32.setNumericOffset (1 / 100)).getNumericOffset = 1 / 100 ∧
    (dimensionX_i32.setNumericOffset (1 / 100)).isFinitePrecision = true :=
  have h : DBL_MIN < |(1 / 100 : ℚ)| := by
    unfold DBL_MIN
    norm_num [abs_of_pos]
  ⟨h, rfl, setter_turns_precision_on dimensionX_i32 (1 / 100) h⟩

/-- C20. `setNumericScale` and `setNumericOffset` never clear the precision
flag: after either call the flag is on if it was on before or the value is not
approximately zero, for any value including 0. `setNumericScale` leaves the
offset and `setNumericOffset` the scale as they were, and both leave id,
datatype, name, flags, endianness, byte size, description, minimum and maximum
as they were. -/
theorem setters_frame (d : Dimension) (v : ℚ) :
    ((d.setNumericScale v).isFinitePrecision =
      (d.isFinitePrecision || !Utils.compare_approx v 0 DBL_MIN)) ∧
    ((d.setNumericOffset v).isFinitePrecision =
      (d.isFinitePrecision || !Utils.compare_approx v 0 DBL_MIN)) ∧
    (d.isFinitePrecision = true → (d.setNumericScale v).isFinitePrecision = true) ∧
    (d.isFinitePrecision = true → (d.setNumericOffset v).isFinitePrecision = true) ∧
    d.setNumericScale v =
      { d with m_numericScale := v, m_precise := (d.setNumericScale v).m_precise } ∧
    d.setNumericOffset v =
      { d with m_numericOffset := v, m_precise := (d.setNumericOffset v).m_precise } := by
  unfold Dimension.setNumericScale Dimension.setNumericOffset Dimension.isFinitePrecision
  cases Utils.compare_approx v 0 DBL_MIN <;> simp

theorem setters_frame_witness :
    ((dimensionX_i32.setFinitePrecision true).setNumericScale 0).isFinitePrecision = true ∧
    ((dimensionX_i32.setFinitePrecision true).setNumericOffset 0).isFinitePrecision = true ∧
    (dimensionX_i32.setFinitePrecision true).setNumericScale 0 =
      { dimensionX_i32.setFinitePrecision true with
        m_numericScale := 0,
        m_precise := ((dimensionX_i32.setFinitePrecision true).setNumericScale 0).m_precise } :=
  ⟨(setters_frame (dimensionX_i32.setFinitePrecision true) 0).2.2.1 rfl,
    (setters_frame (dimensionX_i32.setFinitePrecision true) 0).2.2.2.1 rfl,
    (setters_frame (dimensionX_i32.setFinitePrecision true) 0).2.2.2.2.1⟩

/-! ## Flags -/

theorem land_two_pow_eq_iff (f i : Nat) : f &&& 2 ^ i = 2 ^ i ↔ f.testBit i = true := by
  constructor
  · intro h
    have := congrArg (fun n => n.testBit i) h
    simpa [Nat.testBit_and, Nat.testBit_two_pow_self] using this
  · intro h
    apply Nat.eq_of_testBit_eq
    intro j
    rw [Nat.testBit_and, Nat.testBit_two_pow]
    by_cases hij : i = j
    · subst hij
      simp [h]
    · simp [hij]

/-- C17. For every flags value `f`: after `setFlags(f)`, `getFlags()` returns
`f`; `isValid()` is true iff `f != 0`; `isRead()` iff bit `0x2` of `f` is set,
`isWritten()` iff bit `0x4` is set, `isIgnored()` iff bit `0x8` is set. Each of
the three is thus a function of its own bit alone, and every combination of
the three occurs. -/
theorem flag_predicates (d : Dimension) (f : Nat) :
    (d.setFlags f).getFlags = f ∧
    ((d.setFlags f).isValid = true ↔ f ≠ 0) ∧
    (d.setFlags f).isRead = f.testBit 1 ∧
    (d.setFlags f).isWritten = f.testBit 2 ∧
    (d.setFlags f).isIgnored = f.testBit 3 ∧
    (∀ r w i : Bool, ∃ g : Nat, g < 16 ∧
      (d.setFlags g).isRead = r ∧ (d.setFlags g).isWritten = w ∧
      (d.setFlags g).isIgnored = i) := by
  have hbit : ∀ (g i : Nat), ((g &&& 2 ^ i) == 2 ^ i) = g.testBit i := by
    intro g i
    cases hb : g.testBit i
    · have : ¬ (g &&& 2 ^ i = 2 ^ i) := by
        rw [land_two_pow_eq_iff, hb]
        simp
      simpa using this
    · have : g &&& 2 ^ i = 2 ^ i := (land_two_pow_eq_iff g i).mpr hb
      simp [this]
  have hR : ∀ g, (d.setFlags g).isRead = g.testBit 1 := fun g => hbit g 1
  have hW : ∀ g, (d.setFlags g).isWritten = g.testBit 2 := fun g => hbit g 2
  have hI : ∀ g, (d.setFlags g).isIgnored = g.testBit 3 := fun g => hbit g 3
  refine ⟨rfl, ?_, hR f, hW f, hI f, ?_⟩
  · simp [Dimension.isValid, Dimension.setFlags, Invalid]
  · intro r w i
    refine ⟨(if r then 2 else 0) + (if w then 4 else 0) + (if i then 8 else 0), ?_, ?_, ?_, ?_⟩
    · cases r <;> cases w <;> cases i <;> decide
    · rw [hR]; cases r <;> cases w <;> cases i <;> decide
    · rw [hW]; cases r <;> cases w <;> cases i <;> decide
    · rw [hI]; cases r <;> cases w <;> cases i <;> decide

/-! ## Equality and serialization -/

theorem operator_eq_iff (d1 d2 : Dimension) :
    d1.operator_eq d2 = true ↔
      d1.m_id = d2.m_id ∧ d1.m_dataType = d2.m_dataType ∧ d1.m_name = d2.m_name ∧
      d1.m_flags = d2.m_flags ∧ d1.m_endian = d2.m_endian := by
  simp [Dimension.operator_eq, and_assoc]

/-- C15. Two dimensions are equal under `==` iff they agree on id, datatype,
name, flags and endianness; minimum, maximum and description do not count.
Equality is reflexive and symmetric, a copy equals its original, `!=` is the
negation of `==`, and dimensions that differ in id or in endianness are
unequal. The table-constructed `X_i32`, copied twice, equals both copies in
both directions, and it is unequal, in both directions, to any dimension with
id `Y_i32` set to big-endian. -/
theorem dimension_equality (d1 d2 : Dimension) :
    (d1.operator_eq d2 = true ↔
      d1.getId = d2.getId ∧ d1.getDataType = d2.getDataType ∧ d1.getName = d2.getName ∧
      d1.getFlags = d2.getFlags ∧ d1.getEndianness = d2.getEndianness) ∧
    (∀ (lo hi : ℚ) (text : String),
      ({ d1 with m_min := lo, m_max := hi, m_description := text } : Dimension).operator_eq d1
        = true) ∧
    d1.operator_eq d1 = true ∧
    d1.operator_eq d2 = d2.operator_eq d1 ∧
    (Dimension.copy d1).operator_eq d1 = true ∧ d1.operator_eq (Dimension.copy d1) = true ∧
    d1.operator_ne d2 = !(d1.operator_eq d2) ∧
    (d1.getId ≠ d2.getId → d1.operator_eq d2 = false ∧ d1.operator_ne d2 = true) ∧
    (d1.getEndianness ≠ d2.getEndianness →
      d1.operator_eq d2 = false ∧ d1.operator_ne d2 = true) ∧
    (dimensionX_i32.operator_eq dimensionX_i32 = true ∧
     dimensionX_i32.operator_eq (Dimension.copy dimensionX_i32) = true ∧
     (Dimension.copy dimensionX_i32).operator_eq dimensionX_i32 = true ∧
     dimensionX_i32.operator_eq (Dimension.copy (Dimension.copy dimensionX_i32)) = true ∧
     (Dimension.copy (Dimension.copy dimensionX_i32)).operator_eq dimensionX_i32 = true) ∧
    (∀ d4 : Dimension, d4.getId = DimensionId.Y_i32 →
      dimensionX_i32.operator_ne (d4.setEndianness EndianType.Endian_Big) = true ∧
      (d4.setEndianness EndianType.Endian_Big).operator_ne dimensionX_i32 = true) := by
  have hiff := operator_eq_iff
  have hfalse : ∀ a b : Dimension, ¬ (a.operator_eq b = true) →
      a.operator_eq b = false ∧ a.operator_ne b = true := by
    intro a b h
    have : a.operator_eq b = false := by simpa using h
    exact ⟨this, by simp [Dimension.operator_ne, this]⟩
  refine ⟨hiff d1 d2, ?_, ?_, ?_, ?_, ?_, rfl, ?_, ?_, ?_, ?_⟩
  · intro lo hi text
    rw [hiff]
    exact ⟨rfl, rfl, rfl, rfl, rfl⟩
  · rw [hiff]
    exact ⟨rfl, rfl, rfl, rfl, rfl⟩
  · rw [Bool.eq_iff_iff, hiff, hiff]
    constructor <;> rintro ⟨h1, h2, h3, h4, h5⟩ <;> exact ⟨h1.symm, h2.symm, h3.symm, h4.symm, h5.symm⟩
  · rw [hiff]
    exact ⟨rfl, rfl, rfl, rfl, rfl⟩
  · rw [hiff]
    exact ⟨rfl, rfl, rfl, rfl, rfl⟩
  · intro hne
    apply hfalse
    rw [hiff]
    exact fun h => hne h.1
  · intro hne
    apply hfalse
    rw [hiff]
    exact fun h => hne h.2.2.2.2
  · refine ⟨?_, ?_, ?_, ?_, ?_⟩ <;>
      · rw [hiff]
        exact ⟨rfl, rfl, rfl, rfl, rfl⟩
  · intro d4 h4
    have hid : dimensionX_i32.m_id ≠ (d4.setEndianness EndianType.Endian_Big).m_id := by
      have : (d4.setEndianness EndianType.Endian_Big).m_id = DimensionId.Y_i32 := h4
      rw [this]
      decide
    constructor
    · apply (hfalse _ _ _).2
      rw [hiff]
      exact fun h => hid h.1
    · apply (hfalse _ _ _).2
      rw [hiff]
      exact fun h => hid h.1.symm

/-- C16. The diagnostic tree of a dimension has exactly the fields `name`,
`datatype`, `description`, `bytesize`, `endianness`, `scale`, `isValid`, in
this order, and its `isValid` is `isValid()` of the dimension. For the
table-constructed `X_i32` the tree is name `X`, datatype `Int32`, the
description of the table, bytesize 4, endianness `little`, scale 0, isValid
false. -/
theorem toPTree_fields (d : Dimension) :
    d.toPTree.map Prod.fst =
      ["name", "datatype", "description", "bytesize", "endianness", "scale", "isValid"] ∧
    d.toPTree.lookup "isValid" = some (PTreeValue.flag d.isValid) ∧
    dimensionX_i32.toPTree =
      [("name", PTreeValue.text "X"),
       ("datatype", PTreeValue.text "Int32"),
       ("description", PTreeValue.text
          "x coordinate as a long integer. You must use the scale and offset information of the header to determine the double value."),
       ("bytesize", PTreeValue.size 4),
       ("endianness", PTreeValue.text "little"),
       ("scale", PTreeValue.number 0),
       ("isValid", PTreeValue.flag false)] := by
  refine ⟨rfl, ?_, ?_⟩
  · simp [Dimension.toPTree, List.lookup]
  · simp [Dimension.toPTree, dimensionX_i32, Dimension.construct, Dimension.getName,
      Dimension.getDataTypeName, Dimension.getDataType, Dimension.getDescription,
      Dimension.getByteSize, Dimension.getDataTypeSize, Dimension.getEndianness,
      Dimension.getNumericScale, Dimension.isValid, Invalid]

/-! ## The range test of removeScaling -/

/-- C18. With `out` the descaled value, rounded and converted to `T` (the
rounded value itself when that lies in the range of `T`): `removeScaling<T>`
raises `out_of_range` if and only if `out < max(T)` and `out <= min(T)`;
whenever `out >= max(T)` it returns `out`; and in every other case too it
returns `out`. -/
theorem removeScaling_raises_iff (T : IntegerType) (d : Dimension) (v : ℚ)
    (hs : d.m_numericScale ≠ 0) :
    (d.removeScaling T v = Except.error Error.out_of_range ↔
      d.descaled T v < T.max ∧ d.descaled T v ≤ T.min) ∧
    (T.max ≤ d.descaled T v → d.removeScaling T v = Except.ok (d.descaled T v)) ∧
    (d.removeScaling T v = Except.error Error.out_of_range ∨
      d.removeScaling T v = Except.ok (d.descaled T v)) ∧
    (∀ n : Int, Utils.sround ((v - d.getNumericOffset) / d.getNumericScale) = (n : ℚ) →
      T.min ≤ n → n ≤ T.max → d.descaled T v = n) := by
  have _ := hs
  unfold Dimension.removeScaling Dimension.descaled
  simp only [ge_iff_le]
  refine ⟨?_, ?_, ?_, ?_⟩
  · by_cases h1 : T.max ≤ T.static_cast (Utils.sround ((v - d.m_numericOffset) / d.m_numericScale))
    · simp [h1, not_lt.mpr h1]
    · by_cases h2 : T.static_cast (Utils.sround ((v - d.m_numericOffset) / d.m_numericScale))
          ≤ T.min
      · simp [h1, h2, not_le.mp h1]
      · simp [h1, h2]
  · intro h1
    simp [h1]
  · by_cases h1 : T.max ≤ T.static_cast (Utils.sround ((v - d.m_numericOffset) / d.m_numericScale))
    · simp [h1]
    · by_cases h2 : T.static_cast (Utils.sround ((v - d.m_numericOffset) / d.m_numericScale))
          ≤ T.min
      · simp [h1, h2]
      · simp [h1, h2]
  · intro n hn hlo hhi
    unfold Dimension.getNumericOffset Dimension.getNumericScale at hn
    rw [hn]
    exact static_cast_intCast T n hlo hhi

theorem removeScaling_raises_iff_witness :
    (int32Dimension DimensionId.X_i32 "X" 1 0).m_numericScale ≠ 0 ∧
    (int32Dimension DimensionId.X_i32 "X" 1 0).descaled IntegerType.uint8_t 255 = 255 ∧
    IntegerType.max IntegerType.uint8_t = 255 ∧
    (int32Dimension DimensionId.X_i32 "X" 1 0).removeScaling IntegerType.uint8_t 255 =
      Except.ok ((int32Dimension DimensionId.X_i32 "X" 1 0).descaled IntegerType.uint8_t 255) :=
  have hs : (int32Dimension DimensionId.X_i32 "X" 1 0).m_numericScale ≠ 0 := by
    simp [int32Dimension]
  have hout : (int32Dimension DimensionId.X_i32 "X" 1 0).descaled IntegerType.uint8_t 255
      = 255 := by
    norm_num [Dimension.descaled, int32Dimension, Utils.sround, IntegerType.static_cast,
      IntegerType.isSigned, IntegerType.bits]
  have hmax : IntegerType.max IntegerType.uint8_t = 255 := by
    norm_num [IntegerType.max, IntegerType.isSigned, IntegerType.bits]
  ⟨hs, hout, hmax,
    (removeScaling_raises_iff IntegerType.uint8_t (int32Dimension DimensionId.X_i32 "X" 1 0)
      255 hs).2.1 (by rw [hout, hmax])⟩

/-! ## Options and the stage lifecycle -/

theorem getValueOrThrow_Bounds_of_absent (options : Options) (name : String)
    (h : ∀ option ∈ options.m_options, option.m_name ≠ name) :
    options.getValueOrThrow_Bounds name = Except.error Error.option_not_found := by
  unfold Options.getValueOrThrow_Bounds
  have hnone : options.m_options.find? (fun option => option.m_name == name) = Option.none := by
    rw [List.find?_eq_none]
    intro option hmem
    simpa using h option hmem
  rw [hnone]

/-- C12, as stated, fails. With the empty `Options` set, which lacks `bounds`,
the constructor of the stage fails: no `CropFilter` comes out of it, so there
is no stage whose `initialize()` could fail. -/
theorem construction_fails_before_initialize :
    CropFilter.fromOptions Options.none = Except.error Error.option_not_found ∧
    ¬ ∃ f : CropFilter, CropFilter.fromOptions Options.none = Except.ok f := by
  have h : CropFilter.fromOptions Options.none = Except.error Error.option_not_found := rfl
  refine ⟨h, ?_⟩
  rintro ⟨f, hf⟩
  rw [h] at hf
  simp at hf

/-- C12, amended. A `CropFilter` stage cannot be constructed from an `Options`
set that lacks the `bounds` key: the constructor fails with the
missing-option error, so `initialize()` is not reached and no iterator is
created for it. -/
theorem missing_bounds_fails_construction (options : Options) (stage : Stage)
    (h : ∀ option ∈ options.m_options, option.m_name ≠ "bounds") :
    CropFilter.fromOptions options = Except.error Error.option_not_found ∧
    CropFilter.openFromOptions options stage = Except.error Error.option_not_found := by
  have hget := getValueOrThrow_Bounds_of_absent options "bounds" h
  have hctor : CropFilter.fromOptions options = Except.error Error.option_not_found := by
    unfold CropFilter.fromOptions
    rw [hget]
    rfl
  refine ⟨hctor, ?_⟩
  unfold CropFilter.openFromOptions
  rw [hctor]
  rfl

theorem missing_bounds_fails_construction_witness :
    (∀ option ∈ (Options.none.add
        { m_name := "debug", m_value := OptionValue.text "true", m_description := "" }).m_options,
      option.m_name ≠ "bounds") ∧
    CropFilter.fromOptions (Options.none.add
        { m_name := "debug", m_value := OptionValue.text "true", m_description := "" })
      = Except.error Error.option_not_found ∧
    CropFilter.openFromOptions (Options.none.add
        { m_name := "debug", m_value := OptionValue.text "true", m_description := "" })
        { m_initialized := false, m_bounds := cube 0 1, m_numPoints := 7,
          m_pointCountType := PointCountType.PointCount_Fixed }
      = Except.error Error.option_not_found :=
  have h : ∀ option ∈ (Options.none.add
        { m_name := "debug", m_value := OptionValue.text "true", m_description := "" }).m_options,
      option.m_name ≠ "bounds" := by
    intro option hmem
    simp only [Options.add, Options.none, List.nil_append, List.mem_singleton] at hmem
    subst hmem
    decide
  ⟨h, missing_bounds_fails_construction _ _ h⟩

/-- C13. For every configured bounds `b` and every state of the base class,
`initialize()` called twice leaves the state one call leaves: working bounds
`b`, point count 0, point-count type `Unknown`; and `getBounds()` returns `b`
before and after. -/
theorem initialise_idempotent (b : Bounds) (stage : Stage) :
    (CropFilter.fromBounds b).initialise ((CropFilter.fromBounds b).initialise stage) =
      (CropFilter.fromBounds b).initialise stage ∧
    ((CropFilter.fromBounds b).initialise stage).m_bounds = b ∧
    ((CropFilter.fromBounds b).initialise stage).m_numPoints = 0 ∧
    ((CropFilter.fromBounds b).initialise stage).m_pointCountType =
      PointCountType.PointCount_Unknown ∧
    ((CropFilter.fromBounds b).initialise stage).m_initialized = true ∧
    (CropFilter.fromBounds b).getBounds = b ∧
    (∀ options : Options, ∀ f : CropFilter,
      CropFilter.fromOptions options = Except.ok f →
      f.initialise (f.initialise stage) = f.initialise stage ∧
      (f.initialise stage).m_bounds = f.getBounds) :=
  ⟨rfl, rfl, rfl, rfl, rfl, rfl, fun _ _ _ => ⟨rfl, rfl⟩⟩

/-- C14. The options `getDefaultOptions()` declares have exactly one key,
`bounds`, whose default is the default-constructed `Bounds`, and constructing
a `CropFilter` from `getDefaultOptions()` succeeds with `getBounds()` the
default `Bounds`. That key is the one the options constructor reads: from the
declared option carrying any other region `b` the constructor yields
`getBounds() == b`, and from a set whose only option has another name, even
with a region as value, it fails. -/
theorem default_options_construct (b : Bounds) (name text : String) :
    CropFilter.getDefaultOptions.keys = ["bounds"] ∧
    CropFilter.getDefaultOptions.getValueOrThrow_Bounds "bounds" =
      Except.ok { m_ranges := [] } ∧
    CropFilter.fromOptions CropFilter.getDefaultOptions =
      Except.ok (CropFilter.fromBounds { m_ranges := [] }) ∧
    (CropFilter.fromBounds { m_ranges := [] }).getBounds = { m_ranges := [] } ∧
    CropFilter.fromOptions
        { m_options := CropFilter.getDefaultOptions.m_options.map
            (fun option => { option with m_value := OptionValue.bounds b }) } =
      Except.ok (CropFilter.fromBounds b) ∧
    (CropFilter.fromBounds b).getBounds = b ∧
    (name ≠ "bounds" →
      CropFilter.fromOptions
          (Options.none.add
            { m_name := name, m_value := OptionValue.bounds b, m_description := text }) =
        Except.error Error.option_not_found) := by
  refine ⟨rfl, rfl, rfl, rfl, rfl, rfl, ?_⟩
  intro hname
  have hget := getValueOrThrow_Bounds_of_absent
    (Options.none.add { m_name := name, m_value := OptionValue.bounds b, m_description := text })
    "bounds"
    (by
      intro option hmem
      simp only [Options.add, Options.none, List.nil_append, List.mem_singleton] at hmem
      subst hmem
      exact hname)
  unfold CropFilter.fromOptions
  rw [hget]
  rfl

theorem default_options_construct_witness :
    CropFilter.fromOptions
        { m_options := CropFilter.getDefaultOptions.m_options.map
            (fun option => { option with m_value := OptionValue.bounds (cube 0 6) }) } =
      Except.ok (CropFilter.fromBounds (cube 0 6)) ∧
    (CropFilter.fromBounds (cube 0 6)).getBounds = cube 0 6 ∧
    CropFilter.fromOptions
        (Options.none.add
          { m_name := "region", m_value := OptionValue.bounds (cube 0 6),
            m_description := "bounds to crop to" }) =
      Except.error Error.option_not_found :=
  ⟨(default_options_construct (cube 0 6) "region" "bounds to crop to").2.2.2.2.1,
    (default_options_construct (cube 0 6) "region" "bounds to crop to").2.2.2.2.2.1,
    (default_options_construct (cube 0 6) "region" "bounds to crop to").2.2.2.2.2.2
      (by decide)⟩

namespace CropFilter

/-! ## The frame of processBuffer -/

/-- A completed run of the loop leaves the storage of the destination as it
was below `di` and from the final `dstIndex` on, and keeps its length. -/
theorem cropLoop_frame (bounds : Bounds) (readPoint : Nat → Except Error Vector)
    (srcData : PointBuffer) :
    ∀ (n s : Nat) (dst : PointBuffer) (di added : Nat) (r : PointBuffer × Nat × Nat),
      cropLoop bounds readPoint srcData n s (dst, di, added) = Except.ok r →
      (∀ j, (j < di ∨ r.2.1 ≤ j) → r.1.m_data[j]? = dst.m_data[j]?) ∧
      r.1.m_data.length = dst.m_data.length := by
  intro n
  induction n with
  | zero =>
    intro s dst di added r h
    simp only [cropLoop, Except.ok.injEq] at h
    subst h
    exact ⟨fun _ _ => rfl, rfl⟩
  | succ n ih =>
    intro s dst di added r h
    have hres := h
    rw [cropLoop] at h
    cases hp : readPoint s with
    | error e => simp [hp] at h
    | ok p =>
      simp only [hp] at h
      by_cases hc : bounds.contains p = true
      · simp only [hc, if_true] at h
        unfold PointBuffer.copyPointFast at h
        cases hrec : srcData.m_data[s]? with
        | none => simp [hrec] at h
        | some record =>
          simp only [hrec] at h
          by_cases hdi : di < dst.m_capacity
          · rw [if_pos hdi] at h
            simp only [PointBuffer.setNumPoints] at h
            by_cases hsn : di + 1 > dst.m_capacity
            · rw [if_pos hsn] at h
              simp at h
            · rw [if_neg hsn] at h
              simp only [] at h
              obtain ⟨hfr, hlen⟩ := ih (s + 1) _ (di + 1) (added + 1) r h
              have hge := (cropLoop_result bounds readPoint srcData n (s + 1) _ (di + 1)
                (added + 1) r h).1
              refine ⟨?_, by rw [hlen]; simp⟩
              intro j hj
              have hne : di ≠ j := by omega
              rw [hfr j (by omega)]
              exact List.getElem?_set_ne hne
          · rw [if_neg hdi] at h
            simp at h
      · simp only [hc] at h
        exact ih (s + 1) dst di added r h

/-- C19. For every call that returns, with `n0` the `numPoints` of the
destination before it: every destination record at an index below `n0` is as
it was, every destination record at an index from the final `numPoints` on is
as it was, and the storage, the capacity and the layout of the destination
keep their size and value. The source buffer and the filter are `const` in
the source: the call takes them as values and returns the destination and the
count only. -/
theorem processBuffer_frame (f : CropFilter) (dst src dst' : PointBuffer) (n : Nat)
    (h : f.processBuffer dst src = Except.ok (dst', n)) :
    (∀ j, j < dst.m_numPoints → dst'.m_data[j]? = dst.m_data[j]?) ∧
    (∀ j, dst'.m_numPoints ≤ j → dst'.m_data[j]? = dst.m_data[j]?) ∧
    dst'.m_data.length = dst.m_data.length ∧
    dst'.m_capacity = dst.m_capacity ∧
    dst'.m_schemaLayout = dst.m_schemaLayout := by
  obtain ⟨hnum, hcap, hlay⟩ := processBuffer_numPoints f dst src dst' n h
  rcases processBuffer_cases f dst src with h1 | ⟨readPoint, _, heq⟩
  · rcases h1 with h1 | h1 <;> simp [h1] at h
  · rw [heq] at h
    cases hloop : cropLoop f.m_bounds readPoint src src.m_numPoints 0 (dst, dst.m_numPoints, 0) with
    | error e => simp [hloop, finish] at h
    | ok r =>
      obtain ⟨hfr, hlen⟩ := cropLoop_frame f.m_bounds readPoint src _ _ _ _ _ r hloop
      obtain ⟨h1, h2, _, _, _, _⟩ := cropLoop_result f.m_bounds readPoint src _ _ _ _ _ r hloop
      obtain ⟨d, di, a⟩ := r
      simp only at hfr hlen h1 h2
      simp only [hloop, finish] at h
      split at h
      · simp only [Except.ok.injEq, Prod.mk.injEq] at h
        obtain ⟨hd, hn⟩ := h
        subst hd hn
        refine ⟨fun j hj => hfr j (Or.inl hj), fun j hj => hfr j (Or.inr (by omega)), hlen,
          hcap, hlay⟩
      · simp at h

theorem scenarioDestination_result :
    (CropFilter.mk (cube 0 6)).processBuffer scenarioDestination scenarioDoubleSource =
      Except.ok
        ({ m_schemaLayout := doubleLayout, m_capacity := 6, m_numPoints := 4,
           m_data := [doublePoint 9 9 9, doublePoint 0 0 0, doublePoint 5 5 5,
             doublePoint 3 3 3, zeroRecord doubleLayout, zeroRecord doubleLayout] }, 3) := by
  have hsel : containedIndices (cube 0 6) scenarioDoubleSource 0 1 2 = [0, 1, 4] := by decide
  have h := crop_double_result (CropFilter.mk (cube 0 6)) scenarioDestination
    scenarioDoubleSource 0 1 2 rfl rfl rfl (by decide) rfl (by rw [hsel]; decide)
  rw [hsel] at h
  exact h

theorem processBuffer_frame_witness :
    (CropFilter.mk (cube 0 6)).processBuffer scenarioDestination scenarioDoubleSource =
      Except.ok
        ({ m_schemaLayout := doubleLayout, m_capacity := 6, m_numPoints := 4,
           m_data := [doublePoint 9 9 9, doublePoint 0 0 0, doublePoint 5 5 5,
             doublePoint 3 3 3, zeroRecord doubleLayout, zeroRecord doubleLayout] }, 3) ∧
    (∀ j, j < scenarioDestination.m_numPoints →
      [doublePoint 9 9 9, doublePoint 0 0 0, doublePoint 5 5 5,
        doublePoint 3 3 3, zeroRecord doubleLayout, zeroRecord doubleLayout][j]? =
        scenarioDestination.m_data[j]?) ∧
    (∀ j, 4 ≤ j →
      [doublePoint 9 9 9, doublePoint 0 0 0, doublePoint 5 5 5,
        doublePoint 3 3 3, zeroRecord doubleLayout, zeroRecord doubleLayout][j]? =
        scenarioDestination.m_data[j]?) :=
  ⟨scenarioDestination_result,
    (processBuffer_frame (CropFilter.mk (cube 0 6)) scenarioDestination scenarioDoubleSource _ 3
      scenarioDestination_result).1,
    (processBuffer_frame (CropFilter.mk (cube 0 6)) scenarioDestination scenarioDoubleSource _ 3
      scenarioDestination_result).2.1⟩

end CropFilter

/-! ## Order and distinctness under applyScaling -/

/-- With the arithmetic taken exactly, for every dimension and all raw
integers `a`, `b`: with a positive scale, `a < b` gives
`applyScaling(a) < applyScaling(b)`; with a negative scale, `a < b` gives
`applyScaling(b) < applyScaling(a)`; with a non-zero scale, equal results come
from equal raw values only; and with scale zero every raw value maps to the
offset. -/
theorem applyScaling_exact_order (d : Dimension) (a b : Int) :
    (0 < d.getNumericScale → a < b → d.applyScaling a < d.applyScaling b) ∧
    (d.getNumericScale < 0 → a < b → d.applyScaling b < d.applyScaling a) ∧
    (d.getNumericScale ≠ 0 → d.applyScaling a = d.applyScaling b → a = b) ∧
    (d.getNumericScale = 0 → d.applyScaling a = d.getNumericOffset) := by
  unfold Dimension.applyScaling Dimension.getNumericScale Dimension.getNumericOffset
  refine ⟨?_, ?_, ?_, ?_⟩
  · intro hs hab
    have hq : (a : ℚ) < (b : ℚ) := by exact_mod_cast hab
    have := mul_lt_mul_of_pos_right hq hs
    linarith
  · intro hs hab
    have hq : (a : ℚ) < (b : ℚ) := by exact_mod_cast hab
    have := mul_lt_mul_of_neg_right hq hs
    linarith
  · intro hs h
    have h1 : (a : ℚ) * d.m_numericScale = (b : ℚ) * d.m_numericScale := by linarith
    have h2 : (a : ℚ) = (b : ℚ) := mul_right_cancel₀ hs h1
    exact_mod_cast h2
  · intro hs
    rw [hs]
    ring

namespace CropFilter

/-! ## Cropping a cropped buffer -/

/-- In a completed run of the loop every read succeeded. -/
theorem cropLoop_reads (bounds : Bounds) (readPoint : Nat → Except Error Vector)
    (srcData : PointBuffer) :
    ∀ (n s : Nat) (st r : PointBuffer × Nat × Nat),
      cropLoop bounds readPoint srcData n s st = Except.ok r →
      ∀ i, s ≤ i → i < s + n → ∃ p, readPoint i = Except.ok p := by
  intro n
  induction n with
  | zero =>
    intro s st r _ i h1 h2
    omega
  | succ n ih =>
    intro s st r h i h1 h2
    obtain ⟨dst, di, added⟩ := st
    rw [cropLoop] at h
    cases hp : readPoint s with
    | error e => simp [hp] at h
    | ok p =>
      by_cases his : i = s
      · subst his
        exact ⟨p, hp⟩
      · simp only [hp] at h
        by_cases hc : bounds.contains p = true
        · simp only [hc, if_true] at h
          cases hcp : dst.copyPointFast di s srcData with
          | error e => simp [hcp] at h
          | ok d1 =>
            simp only [hcp] at h
            cases hsn : d1.setNumPoints (di + 1) with
            | error e => simp [hsn] at h
            | ok d2 =>
              simp only [hsn] at h
              exact ih (s + 1) _ r h i (by omega) (by omega)
        · simp only [hc] at h
          exact ih (s + 1) _ r h i (by omega) (by omega)

/-- The coordinate read of either branch looks at the record of the source
index only, and which read it is depends on the layout of the destination
only: for a layout, either every call fails on the schema, or every call is
the loop over one read of the record, followed by the closing assertion. -/
theorem processBuffer_reader (f : CropFilter) (layout : SchemaLayout) :
    (∀ dst src : PointBuffer, dst.m_schemaLayout = layout →
      (f.processBuffer dst src = Except.error Error.assert_schema ∨
       f.processBuffer dst src = Except.error Error.schema_error)) ∨
    ∃ g : Option PointRecord → Except Error Vector,
      (∀ p, g Option.none ≠ Except.ok p) ∧
      ∀ dst src : PointBuffer, dst.m_schemaLayout = layout →
        f.processBuffer dst src =
          finish (cropLoop f.m_bounds (fun i => g (src.m_data[i]?)) src src.m_numPoints 0
            (dst, dst.m_numPoints, 0)) := by
  by_cases hd : layout.m_schema.hasDimension DimensionId.X_f64 = true
  · cases hx : layout.getDimensionIndex DimensionId.X_f64 with
    | error e =>
      left
      intro dst src hl
      subst hl
      rcases processBuffer_cases f dst src with h | ⟨_, _, _⟩
      · exact h
      · right
        have := getDimensionIndex_error _ _ _ hx
        subst this
        simp [processBuffer, PointBuffer.getSchemaLayout, SchemaLayout.getSchema, hd, hx, bind,
          Except.bind, pure, Except.pure]
    | ok fx =>
      cases hy : layout.getDimensionIndex DimensionId.Y_f64 with
      | error e =>
        left
        intro dst src hl
        subst hl
        right
        have := getDimensionIndex_error _ _ _ hy
        subst this
        simp [processBuffer, PointBuffer.getSchemaLayout, SchemaLayout.getSchema, hd, hx, hy,
          bind, Except.bind, pure, Except.pure]
      | ok fy =>
        cases hz : layout.getDimensionIndex DimensionId.Z_f64 with
        | error e =>
          left
          intro dst src hl
          subst hl
          right
          have := getDimensionIndex_error _ _ _ hz
          subst this
          simp [processBuffer, PointBuffer.getSchemaLayout, SchemaLayout.getSchema, hd, hx, hy,
            hz, bind, Except.bind, pure, Except.pure]
        | ok fz =>
          right
          refine ⟨fun o =>
            match o.bind (coords_f64 fx fy fz) with
            | some point => Except.ok point
            | Option.none => Except.error Error.src_out_of_bounds, ?_, ?_⟩
          · intro p
            simp
          · intro dst src hl
            subst hl
            rw [processBuffer_double f dst src fx fy fz hx hy hz]
            congr 2
            funext i
            rw [readPointDouble_eq]
            rfl
  · have hd' : layout.m_schema.hasDimension DimensionId.X_f64 = false := by simpa using hd
    by_cases hi : layout.m_schema.hasDimension DimensionId.X_i32 = true
    · cases hx : layout.getDimensionIndex DimensionId.X_i32 with
      | error e =>
        left
        intro dst src hl
        subst hl
        right
        have := getDimensionIndex_error _ _ _ hx
        subst this
        simp [processBuffer, PointBuffer.getSchemaLayout, SchemaLayout.getSchema, hd', hi, hx,
          bind, Except.bind, pure, Except.pure]
      | ok fx =>
        cases hy : layout.getDimensionIndex DimensionId.Y_i32 with
        | error e =>
          left
          intro dst src hl
          subst hl
          right
          have := getDimensionIndex_error _ _ _ hy
          subst this
          simp [processBuffer, PointBuffer.getSchemaLayout, SchemaLayout.getSchema, hd', hi, hx,
            hy, bind, Except.bind, pure, Except.pure]
        | ok fy =>
          cases hz : layout.getDimensionIndex DimensionId.Z_i32 with
          | error e =>
            left
            intro dst src hl
            subst hl
            right
            have := getDimensionIndex_error _ _ _ hz
            subst this
            simp [processBuffer, PointBuffer.getSchemaLayout, SchemaLayout.getSchema, hd', hi,
              hx, hy, hz, bind, Except.bind, pure, Except.pure]
          | ok fz =>
            cases hdim : layout.m_schema.getDimension DimensionId.X_i32 with
            | error e =>
              left
              intro dst src hl
              subst hl
              right
              have := getDimension_error _ _ _ hdim
              subst this
              simp [processBuffer, PointBuffer.getSchemaLayout, SchemaLayout.getSchema, hd', hi,
                hx, hy, hz, hdim, bind, Except.bind, pure, Except.pure]
            | ok xdim =>
              right
              refine ⟨fun o =>
                match o.bind (coords_i32 fx fy fz) with
                | some (xi, yi, zi) =>
                  Except.ok [xdim.applyScaling xi, xdim.applyScaling yi, xdim.applyScaling zi]
                | Option.none => Except.error Error.src_out_of_bounds, ?_, ?_⟩
              · intro p
                simp
              · intro dst src hl
                subst hl
                rw [processBuffer_int f dst src fx fy fz xdim hx hy hz hdim hd']
                congr 2
                funext i
                rw [readPointInt_eq]
                unfold PointBuffer.scaledPoint PointBuffer.xyz_i32
                beta_reduce
                generalize (src.m_data[i]?).bind (coords_i32 fx fy fz) = o
                cases o with
                | none => rfl
                | some t =>
                  obtain ⟨xi, yi, zi⟩ := t
                  rfl
    · left
      intro dst src hl
      subst hl
      left
      have hi' : dst.m_schemaLayout.m_schema.hasDimension DimensionId.X_i32 = false := by
        simpa using hi
      simp [processBuffer, PointBuffer.getSchemaLayout, SchemaLayout.getSchema, hd', hi', bind,
        Except.bind, pure, Except.pure, throw, throwThe, MonadExceptOf.throw]

end CropFilter

theorem range_map_getD {α : Type} (l : List α) (d : α) :
    ∀ k, k ≤ l.length → (List.range k).map (fun j => l.getD j d) = l.take k := by
  intro k
  induction k with
  | zero => intro _; simp
  | succ k ih =>
    intro hk
    have hlt : k < l.length := by omega
    rw [List.range_succ, List.map_append, ih (by omega), List.take_succ]
    simp [List.getElem?_eq_getElem hlt]

theorem getElem?_map_getD_append (l : List PointRecord) (sel : List Nat)
    (rest : List PointRecord) (j : Nat) (hj : j < sel.length)
    (hsel : ∀ i ∈ sel, i < l.length) :
    (sel.map (fun i => l.getD i []) ++ rest)[j]? = l[sel[j]]? := by
  have hmem : sel[j] < l.length := hsel _ (List.getElem_mem hj)
  rw [List.getElem?_append_left (by simpa using hj), List.getElem?_map,
    List.getElem?_eq_getElem hj, List.getElem?_eq_getElem hmem]
  simp [List.getElem?_eq_getElem hmem]

namespace CropFilter

theorem selected_all (bounds : Bounds) (readPoint : Nat → Except Error Vector) (k : Nat)
    (h : ∀ j, j < k → selects bounds readPoint j = true) :
    selected bounds readPoint 0 k = List.range k := by
  rw [selected_eq_filter bounds readPoint k (fun _ => true) (fun j hj => h j hj)]
  simp

theorem mem_selected (bounds : Bounds) (readPoint : Nat → Except Error Vector) (n i : Nat)
    (h : i ∈ selected bounds readPoint 0 n) :
    i < n ∧ selects bounds readPoint i = true := by
  unfold selected at h
  rw [List.mem_filter, List.mem_range'_1] at h
  exact ⟨by omega, h.2⟩

/-- C21. Cropping is idempotent. Let `B` be what a call returns into an empty
destination (its storage as long as its capacity). A second call with the same
filter, from `B` into another empty destination of the same layout and with
room for the points of `B`, returns `B.numPoints`, and the destination then
holds the records of `B`, the same ones in the same order. -/
theorem crop_idempotent (f : CropFilter) (src dst1 dst2 B : PointBuffer) (n : Nat)
    (hfirst : f.processBuffer dst1 src = Except.ok (B, n))
    (he1 : dst1.m_numPoints = 0)
    (hlen1 : dst1.m_data.length = dst1.m_capacity)
    (he2 : dst2.m_numPoints = 0)
    (hlen2 : dst2.m_data.length = dst2.m_capacity)
    (hlay : dst2.m_schemaLayout = dst1.m_schemaLayout)
    (hcap2 : B.m_numPoints ≤ dst2.m_capacity) :
    ∃ B2 : PointBuffer,
      f.processBuffer dst2 B = Except.ok (B2, B.m_numPoints) ∧
      B2.m_numPoints = B.m_numPoints ∧
      B2.m_data.take B.m_numPoints = B.m_data.take B.m_numPoints := by
  rcases processBuffer_reader f dst1.m_schemaLayout with hfail | ⟨g, hg, hall⟩
  · rcases hfail dst1 src rfl with h | h <;> simp [h] at hfirst
  · have h1 := hall dst1 src rfl
    have h2 := hall dst2 B hlay
    rw [h1] at hfirst
    -- the first call: its loop completed
    cases hloop : cropLoop f.m_bounds (fun i => g (src.m_data[i]?)) src src.m_numPoints 0
        (dst1, dst1.m_numPoints, 0) with
    | error e => simp [hloop, finish] at hfirst
    | ok r =>
      have hreads : ∀ i, i < src.m_numPoints → ∃ p, g (src.m_data[i]?) = Except.ok p :=
        fun i hi => cropLoop_reads f.m_bounds _ src _ _ _ r hloop i (Nat.zero_le i) (by omega)
      have hsl : src.m_numPoints ≤ src.m_data.length := by
        by_contra hlt
        obtain ⟨p, hp⟩ := hreads src.m_data.length (by omega)
        rw [List.getElem?_eq_none (le_refl _)] at hp
        exact hg p hp
      have hcap1 : dst1.m_numPoints +
          (selected f.m_bounds (fun i => g (src.m_data[i]?)) 0 src.m_numPoints).length
            ≤ dst1.m_capacity := by
        have h6 := (cropLoop_result f.m_bounds _ src _ _ _ _ _ r hloop).2.2.2.2.2
        by_cases hz :
            (selected f.m_bounds (fun i => g (src.m_data[i]?)) 0 src.m_numPoints).length = 0
        · rw [hz, he1]
          omega
        · exact h6 hz
      rw [finish_cropLoop_ok f.m_bounds _ src dst1 hreads hsl hlen1 hcap1] at hfirst
      simp only [Except.ok.injEq, Prod.mk.injEq] at hfirst
      obtain ⟨hB, _⟩ := hfirst
      have hBnum : B.m_numPoints =
          (selected f.m_bounds (fun i => g (src.m_data[i]?)) 0 src.m_numPoints).length := by
        rw [← hB, he1]
        simp
      have hBdata : B.m_data =
          (selected f.m_bounds (fun i => g (src.m_data[i]?)) 0 src.m_numPoints).map
            (fun i => src.m_data.getD i []) ++
          dst1.m_data.drop
            (selected f.m_bounds (fun i => g (src.m_data[i]?)) 0 src.m_numPoints).length := by
        rw [← hB, he1]
        simp
      have hBlen : B.m_numPoints ≤ B.m_data.length := by
        rw [hBdata, hBnum]
        simp
      -- every point of `B` is read and selected again
      have hpoint : ∀ j, j < B.m_numPoints →
          ∃ p, g (B.m_data[j]?) = Except.ok p ∧ f.m_bounds.contains p = true := by
        intro j hj
        rw [hBnum] at hj
        have hmem := mem_selected f.m_bounds (fun i => g (src.m_data[i]?)) src.m_numPoints _
          (List.getElem_mem hj)
        have hrec : B.m_data[j]? = src.m_data[(selected f.m_bounds
            (fun i => g (src.m_data[i]?)) 0 src.m_numPoints)[j]]? := by
          rw [hBdata]
          exact getElem?_map_getD_append src.m_data _ _ j hj
            (fun i hi => by
              have := (mem_selected f.m_bounds _ src.m_numPoints i hi).1
              omega)
        rw [hrec]
        have hs := hmem.2
        unfold selects at hs
        simp only [] at hs
        cases hv : g (src.m_data[(selected f.m_bounds
            (fun i => g (src.m_data[i]?)) 0 src.m_numPoints)[j]]?) with
        | error e => simp [hv] at hs
        | ok p =>
          simp only [hv] at hs
          exact ⟨p, rfl, hs⟩
      have hreads2 : ∀ j, j < B.m_numPoints → ∃ p, g (B.m_data[j]?) = Except.ok p :=
        fun j hj => (hpoint j hj).imp (fun _ h => h.1)
      have hsel2 : selected f.m_bounds (fun i => g (B.m_data[i]?)) 0 B.m_numPoints =
          List.range B.m_numPoints := by
        apply selected_all
        intro j hj
        obtain ⟨p, hp, hc⟩ := hpoint j hj
        unfold selects
        simp only [hp, hc]
      have hcap2' : dst2.m_numPoints +
          (selected f.m_bounds (fun i => g (B.m_data[i]?)) 0 B.m_numPoints).length
            ≤ dst2.m_capacity := by
        rw [hsel2, he2]
        simpa using hcap2
      rw [h2, finish_cropLoop_ok f.m_bounds _ B dst2 hreads2 hBlen hlen2 hcap2', hsel2,
        List.length_range]
      refine ⟨_, rfl, ?_, ?_⟩
      · simp [he2]
      · simp only [he2, List.take_zero, List.nil_append]
        rw [range_map_getD B.m_data [] B.m_numPoints hBlen,
          List.take_append_of_le_length (by simp [hBlen]), List.take_take]
        simp

theorem scenarioCropped_result :
    (CropFilter.mk (cube 0 6)).processBuffer (emptyBuffer doubleLayout 5) scenarioDoubleSource =
      Except.ok (scenarioCropped, 3) := by
  have hsel : containedIndices (cube 0 6) scenarioDoubleSource 0 1 2 = [0, 1, 4] := by decide
  have h := crop_double_result (CropFilter.mk (cube 0 6)) (emptyBuffer doubleLayout 5)
    scenarioDoubleSource 0 1 2 rfl rfl rfl (by decide) rfl (by rw [hsel]; decide)
  rw [hsel] at h
  exact h

theorem crop_idempotent_witness :
    (CropFilter.mk (cube 0 6)).processBuffer (emptyBuffer doubleLayout 5) scenarioDoubleSource =
      Except.ok (scenarioCropped, 3) ∧
    (emptyBuffer doubleLayout 5).m_numPoints = 0 ∧
    (emptyBuffer doubleLayout 3).m_numPoints = 0 ∧
    (emptyBuffer doubleLayout 3).m_schemaLayout = (emptyBuffer doubleLayout 5).m_schemaLayout ∧
    scenarioCropped.m_numPoints ≤ (emptyBuffer doubleLayout 3).m_capacity ∧
    scenarioCropped.m_data.take scenarioCropped.m_numPoints =
      [doublePoint 0 0 0, doublePoint 5 5 5, doublePoint 3 3 3] ∧
    ∃ B2 : PointBuffer,
      (CropFilter.mk (cube 0 6)).processBuffer (emptyBuffer doubleLayout 3) scenarioCropped =
        Except.ok (B2, scenarioCropped.m_numPoints) ∧
      B2.m_numPoints = scenarioCropped.m_numPoints ∧
      B2.m_data.take scenarioCropped.m_numPoints =
        scenarioCropped.m_data.take scenarioCropped.m_numPoints :=
  ⟨scenarioCropped_result, rfl, rfl, rfl, by decide, rfl,
    crop_idempotent (CropFilter.mk (cube 0 6)) scenarioDoubleSource (emptyBuffer doubleLayout 5)
      (emptyBuffer doubleLayout 3) scenarioCropped 3 scenarioCropped_result rfl rfl rfl rfl rfl
      (by decide)⟩

end CropFilter

/-! ## Rounding to the nearest double -/

theorem roundHalfEven_bounds (x : ℚ) : ⌊x⌋ ≤ roundHalfEven x ∧ roundHalfEven x ≤ ⌊x⌋ + 1 := by
  unfold roundHalfEven
  split
  · omega
  · split
    · omega
    · split <;> omega

theorem roundHalfEven_intCast (n : Int) : roundHalfEven (n : ℚ) = n := by
  unfold roundHalfEven
  simp

theorem roundHalfEven_mono {x y : ℚ} (h : x ≤ y) : roundHalfEven x ≤ roundHalfEven y := by
  have hfl : ⌊x⌋ ≤ ⌊y⌋ := Int.floor_mono h
  rcases lt_or_eq_of_le hfl with hlt | heq
  · have := (roundHalfEven_bounds x).2
    have := (roundHalfEven_bounds y).1
    omega
  · unfold roundHalfEven
    rw [← heq]
    have hxy : x - ⌊x⌋ ≤ y - ⌊x⌋ := by linarith
    by_cases h1 : x - ⌊x⌋ < 1 / 2
    · rw [if_pos h1]
      split
      · omega
      · split
        · omega
        · split <;> omega
    · rw [if_neg h1]
      have h1y : ¬ (y - ⌊x⌋ < 1 / 2) := by
        intro hc
        exact h1 (lt_of_le_of_lt hxy hc)
      rw [if_neg h1y]
      by_cases h2 : 1 / 2 < x - ⌊x⌋
      · rw [if_pos h2, if_pos (lt_of_lt_of_le h2 hxy)]
      · rw [if_neg h2]
        split
        · split <;> omega
        · omega


theorem two_zpow_pos (u : Int) : (0 : ℚ) < 2 ^ u := zpow_pos (by norm_num) u

theorem roundToGrid_mono (u : Int) {x y : ℚ} (h : x ≤ y) : roundToGrid u x ≤ roundToGrid u y := by
  unfold roundToGrid
  have hpos := two_zpow_pos u
  have hdiv : x / 2 ^ u ≤ y / 2 ^ u := div_le_div_of_nonneg_right h (le_of_lt hpos)
  have hr : (roundHalfEven (x / 2 ^ u) : ℚ) ≤ (roundHalfEven (y / 2 ^ u) : ℚ) := by
    exact_mod_cast roundHalfEven_mono hdiv
  exact mul_le_mul_of_nonneg_right hr (le_of_lt hpos)

theorem roundToGrid_intCast_mul (u : Int) (m : Int) :
    roundToGrid u ((m : ℚ) * 2 ^ u) = (m : ℚ) * 2 ^ u := by
  unfold roundToGrid
  have hne : (2 : ℚ) ^ u ≠ 0 := ne_of_gt (two_zpow_pos u)
  rw [mul_div_assoc, div_self hne, mul_one, roundHalfEven_intCast]

theorem roundToGrid_zero (u : Int) : roundToGrid u 0 = 0 := by
  have := roundToGrid_intCast_mul u 0
  simpa using this

theorem two_zpow_eq_intCast_mul (u E : Int) (h : u ≤ E) :
    (2 : ℚ) ^ E = (((2 : Int) ^ (E - u).toNat : Int) : ℚ) * 2 ^ u := by
  have hn : ((E - u).toNat : Int) = E - u := Int.toNat_of_nonneg (by omega)
  have h2 : (2 : ℚ) ≠ 0 := by norm_num
  push_cast
  rw [← zpow_natCast, hn, ← zpow_add₀ h2]
  congr 1
  omega

theorem roundToGrid_two_zpow (u E : Int) (h : u ≤ E) :
    roundToGrid u ((2 : ℚ) ^ E) = 2 ^ E := by
  rw [two_zpow_eq_intCast_mul u E h]
  exact roundToGrid_intCast_mul u _

theorem roundToGrid_neg_two_zpow (u E : Int) (h : u ≤ E) :
    roundToGrid u (-(2 : ℚ) ^ E) = -2 ^ E := by
  rw [two_zpow_eq_intCast_mul u E h]
  have := roundToGrid_intCast_mul u (-((2 : Int) ^ (E - u).toNat))
  simpa using this

/-- The binade of a positive rational. -/
theorem log_bounds (q : ℚ) (hq : 0 < q) :
    (2 : ℚ) ^ Int.log 2 q ≤ q ∧ q < 2 ^ (Int.log 2 q + 1) := by
  have h1 := Int.zpow_log_le_self (b := 2) (r := q) (by norm_num) hq
  have h2 := Int.lt_zpow_succ_log_self (b := 2) (by norm_num) q
  simp only [Nat.cast_ofNat] at h1 h2
  exact ⟨h1, h2⟩

theorem ulpExponent_le_log (q : ℚ) (h : -1074 ≤ Int.log 2 |q|) :
    ulpExponent q ≤ Int.log 2 |q| := by
  unfold ulpExponent
  omega

theorem two_zpow_mono {m n : Int} (h : m ≤ n) : (2 : ℚ) ^ m ≤ 2 ^ n :=
  zpow_le_zpow_right₀ (by norm_num) h

theorem roundDouble_mono_pos {x y : ℚ} (hx : 0 < x) (h : x ≤ y) :
    roundDouble x ≤ roundDouble y := by
  have hy : 0 < y := lt_of_lt_of_le hx h
  have hlog : Int.log 2 x ≤ Int.log 2 y := Int.log_mono_right hx h
  unfold roundDouble ulpExponent
  rw [abs_of_pos hx, abs_of_pos hy]
  by_cases heq : max (Int.log 2 x - 52) (-1074) = max (Int.log 2 y - 52) (-1074)
  · rw [heq]
    exact roundToGrid_mono _ h
  · have hlt : Int.log 2 x < Int.log 2 y := by
      rcases lt_or_eq_of_le hlog with h1 | h1
      · exact h1
      · rw [h1] at heq
        exact absurd rfl heq
    have hbx := (log_bounds x hx).2
    have hby := (log_bounds y hy).1
    have hx2 : x ≤ 2 ^ Int.log 2 y :=
      le_trans (le_of_lt hbx) (two_zpow_mono (by omega))
    calc roundToGrid (max (Int.log 2 x - 52) (-1074)) x
        ≤ roundToGrid (max (Int.log 2 x - 52) (-1074)) (2 ^ Int.log 2 y) :=
          roundToGrid_mono _ hx2
      _ = 2 ^ Int.log 2 y := roundToGrid_two_zpow _ _ (by omega)
      _ = roundToGrid (max (Int.log 2 y - 52) (-1074)) (2 ^ Int.log 2 y) :=
          (roundToGrid_two_zpow _ _ (by omega)).symm
      _ ≤ roundToGrid (max (Int.log 2 y - 52) (-1074)) y := roundToGrid_mono _ hby

theorem roundDouble_mono_neg {x y : ℚ} (hy : y < 0) (h : x ≤ y) :
    roundDouble x ≤ roundDouble y := by
  have hx : x < 0 := lt_of_le_of_lt h hy
  have hxa : 0 < -x := by linarith
  have hya : 0 < -y := by linarith
  have hlog : Int.log 2 (-y) ≤ Int.log 2 (-x) := Int.log_mono_right hya (by linarith)
  unfold roundDouble ulpExponent
  rw [abs_of_neg hx, abs_of_neg hy]
  by_cases heq : max (Int.log 2 (-x) - 52) (-1074) = max (Int.log 2 (-y) - 52) (-1074)
  · rw [heq]
    exact roundToGrid_mono _ h
  · have hlt : Int.log 2 (-y) < Int.log 2 (-x) := by
      rcases lt_or_eq_of_le hlog with h1 | h1
      · exact h1
      · rw [h1] at heq
        exact absurd rfl heq
    have hbx := (log_bounds (-x) hxa).1
    have hby := (log_bounds (-y) hya).2
    have hx2 : x ≤ -(2 : ℚ) ^ Int.log 2 (-x) := by linarith
    have hy2 : -(2 : ℚ) ^ Int.log 2 (-x) ≤ y := by
      have : (2 : ℚ) ^ (Int.log 2 (-y) + 1) ≤ 2 ^ Int.log 2 (-x) := two_zpow_mono (by omega)
      linarith
    calc roundToGrid (max (Int.log 2 (-x) - 52) (-1074)) x
        ≤ roundToGrid (max (Int.log 2 (-x) - 52) (-1074)) (-(2 : ℚ) ^ Int.log 2 (-x)) :=
          roundToGrid_mono _ hx2
      _ = -(2 : ℚ) ^ Int.log 2 (-x) := roundToGrid_neg_two_zpow _ _ (by omega)
      _ = roundToGrid (max (Int.log 2 (-y) - 52) (-1074)) (-(2 : ℚ) ^ Int.log 2 (-x)) :=
          (roundToGrid_neg_two_zpow _ _ (by omega)).symm
      _ ≤ roundToGrid (max (Int.log 2 (-y) - 52) (-1074)) y := roundToGrid_mono _ hy2

theorem roundDouble_nonneg {y : ℚ} (h : 0 ≤ y) : 0 ≤ roundDouble y := by
  unfold roundDouble
  calc (0 : ℚ) = roundToGrid (ulpExponent y) 0 := (roundToGrid_zero _).symm
    _ ≤ roundToGrid (ulpExponent y) y := roundToGrid_mono _ h

theorem roundDouble_nonpos {x : ℚ} (h : x ≤ 0) : roundDouble x ≤ 0 := by
  unfold roundDouble
  calc roundToGrid (ulpExponent x) x ≤ roundToGrid (ulpExponent x) 0 := roundToGrid_mono _ h
    _ = 0 := roundToGrid_zero _

/-- Rounding to the nearest double preserves the order, weakly. -/
theorem roundDouble_mono {x y : ℚ} (h : x ≤ y) : roundDouble x ≤ roundDouble y := by
  by_cases hx : 0 < x
  · exact roundDouble_mono_pos hx h
  · by_cases hy : y < 0
    · exact roundDouble_mono_neg hy h
    · exact le_trans (roundDouble_nonpos (not_lt.mp hx)) (roundDouble_nonneg (not_lt.mp hy))

theorem log_eq_of_binade (q : ℚ) (e : Int) (hq : 0 < q) (h1 : (2 : ℚ) ^ e ≤ q)
    (h2 : q < 2 ^ (e + 1)) : Int.log 2 q = e := by
  have hle : e ≤ Int.log 2 q := by
    rw [← Int.zpow_le_iff_le_log (b := 2) (by norm_num) hq]
    simpa using h1
  have hlt : Int.log 2 q < e + 1 := by
    rw [← Int.lt_zpow_iff_log_lt (b := 2) (by norm_num) hq]
    simpa using h2
  omega

theorem roundDouble_of_binade (q : ℚ) (e : Int) (hq : 0 < q) (h1 : (2 : ℚ) ^ e ≤ q)
    (h2 : q < 2 ^ (e + 1)) :
    roundDouble q = roundToGrid (max (e - 52) (-1074)) q := by
  unfold roundDouble ulpExponent
  rw [abs_of_pos hq, log_eq_of_binade q e hq h1 h2]

theorem roundDouble_zero : roundDouble 0 = 0 := roundToGrid_zero _

theorem roundDouble_two_zpow (E : Int) (h : -1074 ≤ E) : roundDouble ((2 : ℚ) ^ E) = 2 ^ E := by
  rw [roundDouble_of_binade _ E (two_zpow_pos E) le_rfl
    (zpow_lt_zpow_right₀ (by norm_num) (by omega))]
  exact roundToGrid_two_zpow _ _ (by omega)

theorem roundDouble_one : roundDouble 1 = 1 := by
  have := roundDouble_two_zpow 0 (by norm_num)
  simpa using this

theorem roundDouble_near_one : roundDouble (1 + 1 / 2 ^ 60) = 1 := by
  rw [roundDouble_of_binade _ 0 (by norm_num) (by norm_num) (by norm_num)]
  have hfl : ⌊((1 : ℚ) + 1 / 2 ^ 60) / 2 ^ (-52 : Int)⌋ = 2 ^ 52 := by
    rw [Int.floor_eq_iff]
    norm_num
  norm_num [roundToGrid, roundHalfEven, hfl]

theorem roundDouble_tie : roundDouble (2 ^ 53 + 1) = 2 ^ 53 := by
  rw [roundDouble_of_binade _ 53 (by norm_num) (by norm_num) (by norm_num)]
  have hfl : ⌊((2 : ℚ) ^ 53 + 1) / 2 ^ (1 : Int)⌋ = 2 ^ 52 := by
    rw [Int.floor_eq_iff]
    norm_num
  norm_num [roundToGrid, roundHalfEven, hfl]

/-! ## Order under applyScaling in double arithmetic -/

theorem applyScalingDouble_zero_tiny :
    (int32Dimension DimensionId.X_i32 "X" (1 / 2 ^ 60) 1).applyScalingDouble 0 = 1 := by
  simp [Dimension.applyScalingDouble, int32Dimension, roundDouble_zero, roundDouble_one]

theorem applyScalingDouble_one_tiny :
    (int32Dimension DimensionId.X_i32 "X" (1 / 2 ^ 60) 1).applyScalingDouble 1 = 1 := by
  have hs : roundDouble ((1 : ℚ) / 2 ^ 60) = 1 / 2 ^ 60 := by
    have := roundDouble_two_zpow (-60) (by norm_num)
    norm_num at this ⊢
    exact this
  have hsum : roundDouble ((1 : ℚ) / 2 ^ 60 + 1) = 1 := by
    rw [add_comm]
    exact roundDouble_near_one
  simp only [Dimension.applyScalingDouble, int32Dimension, Int.cast_one, roundDouble_one, one_mul,
    hs, hsum]

theorem applyScalingDouble_big (v : Int) (h : roundDouble (v : ℚ) = 2 ^ 53) :
    (int32Dimension DimensionId.X_i32 "X" 1 0).applyScalingDouble v = 2 ^ 53 := by
  have h53 : roundDouble ((2 : ℚ) ^ 53) = 2 ^ 53 := by
    have := roundDouble_two_zpow 53 (by norm_num)
    norm_num at this ⊢
    exact this
  simp only [Dimension.applyScalingDouble, int32Dimension, h, mul_one, add_zero, h53]

/-- C22, as stated, fails in the arithmetic of `double`. With scale `2^-60`
and offset 1, both doubles, the raw values 0 and 1 both map to 1.0: the sum
`1 + 2^-60` rounds to 1. With scale 1 and offset 0 the raw values `2^53` and
`2^53 + 1`, passed to the template at a 64-bit integer type, both map to `2^53`: the conversion of `2^53 + 1` to `double` is a
tie and goes to the even significand. In both cases `a < b` and the scale is
positive, `applyScaling(a) < applyScaling(b)` is false, and the two raw values
are distinct with equal results. -/
theorem applyScaling_collapses_in_doubles :
    (0 < (int32Dimension DimensionId.X_i32 "X" (1 / 2 ^ 60) 1).getNumericScale ∧
     roundDouble (1 / 2 ^ 60) = 1 / 2 ^ 60 ∧ roundDouble 1 = 1 ∧
     (0 : Int) < 1 ∧
     (int32Dimension DimensionId.X_i32 "X" (1 / 2 ^ 60) 1).applyScalingDouble 0 = 1 ∧
     (int32Dimension DimensionId.X_i32 "X" (1 / 2 ^ 60) 1).applyScalingDouble 1 = 1 ∧
     ¬ ((int32Dimension DimensionId.X_i32 "X" (1 / 2 ^ 60) 1).applyScalingDouble 0 <
        (int32Dimension DimensionId.X_i32 "X" (1 / 2 ^ 60) 1).applyScalingDouble 1)) ∧
    (0 < (int32Dimension DimensionId.X_i32 "X" 1 0).getNumericScale ∧
     (2 ^ 53 : Int) < 2 ^ 53 + 1 ∧
     (int32Dimension DimensionId.X_i32 "X" 1 0).applyScalingDouble (2 ^ 53) = 2 ^ 53 ∧
     (int32Dimension DimensionId.X_i32 "X" 1 0).applyScalingDouble (2 ^ 53 + 1) = 2 ^ 53 ∧
     ¬ ((int32Dimension DimensionId.X_i32 "X" 1 0).applyScalingDouble (2 ^ 53) <
        (int32Dimension DimensionId.X_i32 "X" 1 0).applyScalingDouble (2 ^ 53 + 1))) := by
  have hs : roundDouble ((1 : ℚ) / 2 ^ 60) = 1 / 2 ^ 60 := by
    have := roundDouble_two_zpow (-60) (by norm_num)
    norm_num at this ⊢
    exact this
  have hA := applyScalingDouble_big (2 ^ 53) (by
    have := roundDouble_two_zpow 53 (by norm_num)
    norm_num at this ⊢
    exact this)
  have hB := applyScalingDouble_big (2 ^ 53 + 1) (by
    have := roundDouble_tie
    norm_num at this ⊢
    exact this)
  refine ⟨⟨by norm_num [Dimension.getNumericScale, int32Dimension], hs, roundDouble_one,
      by decide, applyScalingDouble_zero_tiny, applyScalingDouble_one_tiny, ?_⟩,
    ⟨by norm_num [Dimension.getNumericScale, int32Dimension], by norm_num, hA, hB, ?_⟩⟩
  · rw [applyScalingDouble_zero_tiny, applyScalingDouble_one_tiny]
    exact lt_irrefl 1
  · rw [hA, hB]
    exact lt_irrefl _

/-- C22, amended. In the arithmetic of `double`, where no step overflows,
`applyScaling` preserves the order of raw values weakly: with a positive scale
`a < b` gives `applyScaling(a) <= applyScaling(b)`, with a negative scale
`applyScaling(b) <= applyScaling(a)`, and with scale zero every raw value maps
to the offset. With the arithmetic taken exactly the order is strict, and for
a non-zero scale `applyScaling` is injective. -/
theorem applyScaling_weak_order (d : Dimension) (a b : Int) :
    (d.applyScalingFinite a → d.applyScalingFinite b → 0 < d.getNumericScale → a < b →
      d.applyScalingDouble a ≤ d.applyScalingDouble b) ∧
    (d.applyScalingFinite a → d.applyScalingFinite b → d.getNumericScale < 0 → a < b →
      d.applyScalingDouble b ≤ d.applyScalingDouble a) ∧
    (d.getNumericScale = 0 → d.applyScalingDouble a = roundDouble d.getNumericOffset) ∧
    (d.getNumericScale = 0 → roundDouble d.getNumericOffset = d.getNumericOffset →
      d.applyScalingDouble a = d.getNumericOffset) ∧
    (0 < d.getNumericScale → a < b → d.applyScaling a < d.applyScaling b) ∧
    (d.getNumericScale < 0 → a < b → d.applyScaling b < d.applyScaling a) ∧
    (d.getNumericScale ≠ 0 → d.applyScaling a = d.applyScaling b → a = b) ∧
    (d.getNumericScale = 0 → d.applyScaling a = d.getNumericOffset) := by
  have hex := applyScaling_exact_order d a b
  have hzero : d.getNumericScale = 0 →
      d.applyScalingDouble a = roundDouble d.getNumericOffset := by
    intro hs
    unfold Dimension.getNumericScale at hs
    simp [Dimension.applyScalingDouble, Dimension.getNumericOffset, hs, roundDouble_zero]
  refine ⟨?_, ?_, hzero, ?_, hex.1, hex.2.1, hex.2.2.1, hex.2.2.2⟩
  · intro _ _ hs hab
    unfold Dimension.getNumericScale at hs
    unfold Dimension.applyScalingDouble
    have hq : (a : ℚ) ≤ (b : ℚ) := by exact_mod_cast le_of_lt hab
    have h1 := roundDouble_mono hq
    have h2 := roundDouble_mono (mul_le_mul_of_nonneg_right h1 (le_of_lt hs))
    exact roundDouble_mono (by linarith)
  · intro _ _ hs hab
    unfold Dimension.getNumericScale at hs
    unfold Dimension.applyScalingDouble
    have hq : (a : ℚ) ≤ (b : ℚ) := by exact_mod_cast le_of_lt hab
    have h1 := roundDouble_mono hq
    have h2 := roundDouble_mono (mul_le_mul_of_nonpos_right h1 (le_of_lt hs))
    exact roundDouble_mono (by linarith)
  · intro hs ho
    rw [hzero hs, ho]

theorem applyScaling_weak_order_witness :
    (int32Dimension DimensionId.X_i32 "X" (1 / 2 ^ 60) 1).applyScalingFinite 0 ∧
    (int32Dimension DimensionId.X_i32 "X" (1 / 2 ^ 60) 1).applyScalingFinite 1 ∧
    0 < (int32Dimension DimensionId.X_i32 "X" (1 / 2 ^ 60) 1).getNumericScale ∧
    (int32Dimension DimensionId.X_i32 "X" (1 / 2 ^ 60) 1).applyScalingDouble 0 ≤
      (int32Dimension DimensionId.X_i32 "X" (1 / 2 ^ 60) 1).applyScalingDouble 1 ∧
    (int32Dimension DimensionId.X_i32 "X" (1 / 2 ^ 60) 1).applyScaling 0 <
      (int32Dimension DimensionId.X_i32 "X" (1 / 2 ^ 60) 1).applyScaling 1 :=
  have hs : roundDouble ((1 : ℚ) / 2 ^ 60) = 1 / 2 ^ 60 := by
    have := roundDouble_two_zpow (-60) (by norm_num)
    norm_num at this ⊢
    exact this
  have hmax : (1 : ℚ) ≤ DBL_MAX := by
    unfold DBL_MAX
    norm_num
  have h0 : (int32Dimension DimensionId.X_i32 "X" (1 / 2 ^ 60) 1).applyScalingFinite 0 := by
    refine ⟨?_, ?_, ?_⟩
    · simp only [Int.cast_zero, roundDouble_zero, abs_zero]
      linarith
    · simp only [int32Dimension, Int.cast_zero, roundDouble_zero, zero_mul, abs_zero]
      linarith
    · rw [applyScalingDouble_zero_tiny, abs_one]
      exact hmax
  have h1 : (int32Dimension DimensionId.X_i32 "X" (1 / 2 ^ 60) 1).applyScalingFinite 1 := by
    refine ⟨?_, ?_, ?_⟩
    · simp only [Int.cast_one, roundDouble_one, abs_one]
      exact hmax
    · simp only [int32Dimension, Int.cast_one, roundDouble_one, one_mul, hs]
      rw [abs_of_pos (by norm_num)]
      have : (1 : ℚ) / 2 ^ 60 ≤ 1 := by norm_num
      linarith
    · rw [applyScalingDouble_one_tiny, abs_one]
      exact hmax
  have hpos : 0 < (int32Dimension DimensionId.X_i32 "X" (1 / 2 ^ 60) 1).getNumericScale := by
    norm_num [Dimension.getNumericScale, int32Dimension]
  ⟨h0, h1, hpos,
    (applyScaling_weak_order (int32Dimension DimensionId.X_i32 "X" (1 / 2 ^ 60) 1) 0 1).1
      h0 h1 hpos (by decide),
    (applyScaling_weak_order (int32Dimension DimensionId.X_i32 "X" (1 / 2 ^ 60) 1) 0 1).2.2.2.2.1
      hpos (by decide)⟩

end pdal
